import Mathlib

/-!
Verification of the gcode-proxy GRBL device engine, trigger engine and serial
line cleaner against their specification.

The definitions below are a shallow embedding of the Python sources under
src/src/gcode_proxy/ (core/task.py, core/utils.py, device/grbl_device.py,
device/grbl_device_status.py, trigger/trigger_manager.py, trigger/trigger.py).
Pure functions become Lean functions; the asynchronous device engine becomes a
step relation on an explicit state record, where one step is one atomic region
between suspension points of the single-threaded cooperative scheduler.

Python dynamic-typing failures present in the sources are modelled explicitly:
the dataclass Task in core/task.py declares `client_uuid: str | None` with no
default, so every construction of a GCodeTask or ShellTask that omits
client_uuid raises TypeError, and ShellTask declares no wait_for_idle field, so
constructing one with that keyword raises TypeError and reading the attribute
raises AttributeError.  These raise points are embedded as values of `PyErr`
returned from the constructor helpers below, and each call site propagates or
catches them exactly as the Python code does.
-/

namespace GcodeProxy

/-! ## Python string primitives (ASCII fragment)

The serial codec reads and writes ASCII, and the TCP server decodes ASCII
commands, so the ASCII fragment of the Python string operations is sufficient.
Strings are handled through their character lists. -/

/-- The whitespace characters removed by Python str.strip and matched by the
regex class backslash-s (ASCII fragment). -/
def pyWs (c : Char) : Bool :=
  c == ' ' || c == '\t' || c == '\n' || c == '\r' || c == '\x0b' || c == '\x0c'

/-- Python str.strip on a character list: drop whitespace from both ends. -/
def pyStripChars (l : List Char) : List Char :=
  ((l.dropWhile pyWs).reverse.dropWhile pyWs).reverse

/-- Python str.strip. -/
def pyStrip (s : String) : String := String.mk (pyStripChars s.data)

/-- Python str.upper on the ASCII fragment. -/
def pyUpper (s : String) : String := String.mk (s.data.map Char.toUpper)

/-- Case-sensitive test that the first list is a prefix of the second. -/
def pfxEq : List Char → List Char → Bool
  | [], _ => true
  | _ :: _, [] => false
  | a :: as, b :: bs => a == b && pfxEq as bs

/-- Python str.startswith (character-wise). -/
def pyStartsWith (s pre : String) : Bool := pfxEq pre.data s.data

/-- Python str.endswith (character-wise). -/
def pyEndsWith (s suf : String) : Bool := pfxEq suf.data.reverse s.data.reverse

/-- Case-insensitive test (via Char.toLower) that the first list is a prefix of
the second; this is how a literal token of a case-insensitive regex matches at
a fixed position. -/
def ciPfx : List Char → List Char → Bool
  | [], _ => true
  | _ :: _, [] => false
  | a :: as, b :: bs => (a.toLower == b.toLower) && ciPfx as bs

/-- Python substring containment (the `in` operator): some suffix of the
haystack starts with the needle. -/
def subStr (needle hay : List Char) : Bool :=
  hay.tails.any (pfxEq needle)

/-- Case-insensitive substring containment, expressed on lowered lists. -/
def subStrCI (needle hay : List Char) : Bool :=
  subStr (needle.map Char.toLower) (hay.map Char.toLower)

/-! ## core/utils.py -/

/-- The alternatives of GRBL_IMMEDIATE_COMMANDS_RE in core/utils.py:
the regex is `\?|M0|M1|M2|M30|!|~|\x18` compiled with re.IGNORECASE.  Every
alternative is a literal token. -/
def immediateToks : List (List Char) :=
  [['?'], ['M', '0'], ['M', '1'], ['M', '2'], ['M', '3', '0'], ['!'], ['~'], ['\x18']]

/-- re.search of an alternation of literal tokens under IGNORECASE: scan every
position of the string and try each alternative there.  The boolean result is
whether any position admits any alternative. -/
def reSearchAnyCI (toks : List (List Char)) (l : List Char) : Bool :=
  l.tails.any (fun suf => toks.any (fun t => ciPfx t suf))

/-- is_immediate_grbl_command from core/utils.py:
`bool(GRBL_IMMEDIATE_COMMANDS_RE.search(command))`.  Note that re.search finds
the token anywhere in the command, not only when the command equals a token. -/
def is_immediate_grbl_command (command : String) : Bool :=
  reSearchAnyCI immediateToks command.data

/-! ### clean_grbl_response

GRBL_CONTENT_RE in core/utils.py is
`^.*?(\d+\.\d+|\$.*|ok|error:\d+|ALARM:\d+|<[^>]+>|\[MSG:[^\]]+\]|Grbl\s\d+\.\d+.*)$`
with re.IGNORECASE, applied by `.search` to the stripped line; the matched
group is returned stripped, or the empty string when there is no match.

Because the group is anchored by `$` and the input is stripped (so it does not
end in a newline), the group is always a suffix of the stripped line.  The lazy
prefix `.*?` makes the engine try positions left to right, so the result is the
longest suffix matched by some alternative; the lazy dot cannot cross a newline
character, which limits the scan to the part of the line before any embedded
newline.  Each alternative below is the exact condition under which that
alternative of the regex consumes a given suffix entirely (the internal
greedy/backtracking behaviour of each alternative is resolved in the comments
of the respective definition). -/

/-- Alternative `\d+\.\d+` consuming the whole suffix: the first `\d+` is
greedy over digits, must then find a literal dot (shrinking it cannot help,
since a shorter match leaves a digit where the dot is required), then `\d+$`
requires the rest to be one or more digits. -/
def altDecimal (s : List Char) : Bool :=
  let d1 := s.takeWhile Char.isDigit
  let r := s.dropWhile Char.isDigit
  decide (d1 ≠ []) &&
    (match r with
     | '.' :: r2 => decide (r2 ≠ []) && r2.all Char.isDigit
     | _ => false)

/-- Alternative `\$.*` consuming the whole suffix: a dollar sign, then `.*`
must reach the end, which it can do exactly when no newline follows (the dot
does not match a newline, and `$` is the end of the stripped string). -/
def altDollar (s : List Char) : Bool :=
  match s with
  | '$' :: r => r.all (fun c => c != '\n')
  | _ => false

/-- Alternative `ok` (IGNORECASE) consuming the whole suffix. -/
def altOk (s : List Char) : Bool :=
  s.map Char.toLower == ['o', 'k']

/-- Alternative `error:\d+` (IGNORECASE) consuming the whole suffix. -/
def altError (s : List Char) : Bool :=
  ciPfx ['e', 'r', 'r', 'o', 'r', ':'] s &&
    (let r := s.drop 6
     decide (r ≠ []) && r.all Char.isDigit)

/-- Alternative `ALARM:\d+` (IGNORECASE) consuming the whole suffix. -/
def altAlarm (s : List Char) : Bool :=
  ciPfx ['a', 'l', 'a', 'r', 'm', ':'] s &&
    (let r := s.drop 6
     decide (r ≠ []) && r.all Char.isDigit)

/-- Alternative `<[^>]+>` consuming the whole suffix: an opening angle
bracket, a nonempty interior free of closing angle brackets, and a closing
angle bracket that must be the last character (the greedy class cannot cross a
closing bracket, and backtracking cannot place one anywhere but at the end). -/
def altAngle (s : List Char) : Bool :=
  match s with
  | '<' :: r =>
      (match r.getLast? with
       | some '>' => decide (2 ≤ r.length) && (r.dropLast.all (fun c => c != '>'))
       | _ => false)
  | _ => false

/-- Alternative `\[MSG:[^\]]+\]` (IGNORECASE on the letters) consuming the
whole suffix, by the same reasoning as the status-report alternative. -/
def altMsg (s : List Char) : Bool :=
  ciPfx ['[', 'm', 's', 'g', ':'] s &&
    (let r := s.drop 5
     match r.getLast? with
     | some ']' => decide (2 ≤ r.length) && (r.dropLast.all (fun c => c != ']'))
     | _ => false)

/-- Alternative `Grbl\s\d+\.\d+.*` (IGNORECASE) consuming the whole suffix:
the literal word, one whitespace character, a nonempty greedy digit run that
must be followed by a literal dot, at least one digit, and a tail free of
newlines for the final `.*` to reach the end. -/
def altGrbl (s : List Char) : Bool :=
  ciPfx ['g', 'r', 'b', 'l'] s &&
    (match s.drop 4 with
     | c :: r =>
         pyWs c &&
           (let d1 := r.takeWhile Char.isDigit
            let r2 := r.dropWhile Char.isDigit
            decide (d1 ≠ []) &&
              (match r2 with
               | '.' :: r3 =>
                   (match r3 with
                    | d :: _ => d.isDigit && r3.all (fun x => x != '\n')
                    | [] => false)
               | _ => false))
     | [] => false)

/-- A suffix is consumed by the group of GRBL_CONTENT_RE when one of the eight
alternatives consumes it.  The regex tries the alternatives in order; since no
two alternatives can consume the same nonempty suffix (their first characters
are a digit, a dollar, o, e, a, an opening angle bracket, an opening square
bracket and g, up to case), the ordered alternation equals this disjunction. -/
def grblAlt (s : List Char) : Bool :=
  altDecimal s || altDollar s || altOk s || altError s || altAlarm s ||
    altAngle s || altMsg s || altGrbl s

/-- The position scan of `^.*?(...)$`: try the suffix at the current position;
on failure the lazy dot consumes one character, which it cannot do when that
character is a newline. -/
def grblScan : List Char → Option (List Char)
  | [] => if grblAlt [] then some [] else none
  | c :: rest =>
      if grblAlt (c :: rest) then some (c :: rest)
      else if c == '\n' then none
      else grblScan rest

/-- clean_grbl_response from core/utils.py: strip the raw line, search
GRBL_CONTENT_RE, return the stripped matched group or the empty string. -/
def clean_grbl_response (raw : String) : String :=
  match grblScan (pyStripChars raw.data) with
  | some g => String.mk (pyStripChars g)
  | none => ""

/-! Reference definitions for claim C9, written from the words of the
specification, to be compared with clean_grbl_response. -/

/-- Modelled from the spec, for comparison only: the longest prefix of the
given suffix that matches one of the token patterns, used to find token
occurrences at a position. -/
def tokenAt (suf : List Char) : Option (List Char) :=
  (suf.inits.filter grblAlt).getLast?

/-- Modelled from the spec, for comparison only: the last occurrence in the
line of a token matching any of the patterns, meaning the occurrence that
begins at the largest position (taking the longest token there). -/
def lastTokOcc : List Char → Option (List Char)
  | [] => tokenAt []
  | c :: rest =>
      match lastTokOcc rest with
      | some t => some t
      | none => tokenAt (c :: rest)

/-- The amended description of the cleaner: the longest suffix of the stripped
line consumed by one of the token alternatives (stripped again, which is a
no-op for matched tokens), or the empty string when no suffix matches. -/
def cleanSpecLongestSuffix (raw : String) : String :=
  match (pyStripChars raw.data).tails.find? grblAlt with
  | some g => String.mk (pyStripChars g)
  | none => ""

/-! ## core/task.py -/

/-- The Python exceptions that the modelled code can raise. -/
inductive PyErr
  | typeError
  | attributeError
deriving DecidableEq, Repr

/-- The task sum type of core/task.py.  Task carries client_uuid (an opaque
client id or None), should_respond and char_count; GCodeTask adds gcode and
recomputes char_count in post-init; ShellTask adds id and command and keeps the
default char_count of 0.  ShellTask declares NO wait_for_idle field. -/
inductive PTask
  | gcode (client : Option String) (g : String) (shouldRespond : Bool)
  | shell (client : Option String) (tid : String) (cmd : String) (shouldRespond : Bool)
deriving DecidableEq, Repr

/-- GCodeTask construction with an explicit client_uuid: post-init appends a
trailing newline when the gcode is nonempty and lacks one. -/
def mkGCodeTask (client : Option String) (g : String) (shouldRespond : Bool) : PTask :=
  .gcode client (if g.length != 0 && !(pyEndsWith g "\n") then g ++ "\n" else g) shouldRespond

/-- GCodeTask construction that omits client_uuid, as at grbl_device.py lines
401, 471, 624 and 658.  The dataclass Task declares `client_uuid: str | None`
with no default value, so these calls raise
`TypeError: missing 1 required positional argument: client_uuid`. -/
def mkGCodeTaskNoClient (_g : String) (_shouldRespond : Bool) : Except PyErr PTask :=
  .error .typeError

/-- ShellTask construction that omits client_uuid, as at
trigger_manager.py:374; raises TypeError for the same reason. -/
def mkShellTaskNoClient (_tid _cmd : String) : Except PyErr PTask :=
  .error .typeError

/-- ShellTask construction with a wait_for_idle keyword argument, as at
trigger/trigger_manager.py:233-242.  core/task.py defines ShellTask with
fields id and command only, so this call raises
`TypeError: unexpected keyword argument wait_for_idle`. -/
def mkShellTaskWaitForIdle (_client : Option String) (_tid _cmd : String)
    (_shouldRespond _waitForIdle : Bool) : Except PyErr PTask :=
  .error .typeError

/-- Reading task.wait_for_idle, as at grbl_device.py:395 and :777.  Neither
GCodeTask nor ShellTask defines the attribute, so the read raises
AttributeError. -/
def PTask.waitForIdleAttr : PTask → Except PyErr Bool
  | .shell _ _ _ _ => .error .attributeError
  | .gcode _ _ _ => .error .attributeError

/-- task.char_count: the length of the normalized gcode for a GCodeTask, and
the dataclass default 0 for a ShellTask (never recomputed). -/
def PTask.charCount : PTask → Nat
  | .gcode _ g _ => g.length
  | .shell _ _ _ _ => 0

/-- task.client_uuid. -/
def PTask.client : PTask → Option String
  | .gcode c _ _ => c
  | .shell c _ _ _ => c

/-- task.should_respond. -/
def PTask.shouldRespond : PTask → Bool
  | .gcode _ _ r => r
  | .shell _ _ _ r => r

/-- Whether the task is a GCodeTask. -/
def PTask.isGcode : PTask → Bool
  | .gcode _ _ _ => true
  | .shell _ _ _ _ => false

/-! ## device/grbl_device_status.py -/

/-- HomingStatus. -/
inductive Homing
  | off
  | queued
  | complete
deriving DecidableEq, Repr

/-- A regex word character (ASCII fragment of backslash-w). -/
def isWordChar (c : Char) : Bool := c.isAlphanum || c == '_'

/-- GrblDeviceState.parse_state_str: a status report must be enclosed in angle
brackets; the state is the match of `^(\w+)[|,]` on the interior, else the
string Unknown.  The greedy word run must be directly followed by a pipe or a
comma: shrinking it cannot help since a word character would then sit where the
delimiter is required. -/
def parseStateStr (line : String) : String :=
  if pyStartsWith line "<" && pyEndsWith line ">" then
    let content := (line.data.drop 1).dropLast
    let w := content.takeWhile isWordChar
    let r := content.dropWhile isWordChar
    match r with
    | c :: _ => if (c == '|' || c == ',') && decide (w ≠ []) then String.mk w else "Unknown"
    | [] => "Unknown"
  else "Unknown"

/-! ## device/grbl_device.py: the device engine state

One value of `Dev` is the device-owned mutable state of GrblDevice: the
connection flags, the buffer quota, the in-flight queue, the pending task
queue (self.task_queue), the device-state object (status word and homing
phase), the skippable-ok counter, the resume event, the buffer-paused flag
and the number of armed homing grace timers (asyncio tasks created at :711
that have not fired yet). -/

structure Dev where
  connected : Bool
  running : Bool
  bufferQuota : Int
  inFlight : List PTask
  pending : List PTask
  status : String
  homing : Homing
  skippableOks : Nat
  resumeEvent : Bool
  bufferPaused : Bool
  graceTimers : Nat
deriving DecidableEq, Repr

/-- Static configuration of the engine: grbl_buffer_size and
swallow_realtime_ok.  status_behavior is the default StatusBehavior.FORWARD,
the single mode supported by the specification. -/
structure Cfg where
  grblBufferSize : Nat
  swallowRealtimeOk : Bool
deriving DecidableEq, Repr

/-- The observable effects of one atomic region: strings written to the serial
port, unicast responses (client id, data) queued via task.send_response,
broadcasts to all clients, shell commands handed to a subprocess, and whether
a Python exception escaped to the caller of the region.  The two ghost fields
record the tasks appended to the in-flight queue and the tasks popped from it
by _handle_task_completion, for the acknowledgement-order theorems. -/
structure Out where
  serial : List String := []
  resp : List (Option String × String) := []
  casts : List String := []
  execs : List String := []
  raised : Bool := false
  sent : List PTask := []
  acked : List PTask := []
deriving DecidableEq, Repr

/-- Sequential composition of effects. -/
def Out.app (a b : Out) : Out :=
  { serial := a.serial ++ b.serial
    resp := a.resp ++ b.resp
    casts := a.casts ++ b.casts
    execs := a.execs ++ b.execs
    raised := a.raised || b.raised
    sent := a.sent ++ b.sent
    acked := a.acked ++ b.acked }

/-- _initialize_device (grbl_device.py:225-258): clears the pending task
queue, the in-flight queue and the response queue (the response queue is the
environment in this model), resets the buffer quota and the skippable-ok
counter, installs a fresh GrblDeviceState (status Unknown, homing off) and
sets the resume event.  It does not reset buffer_paused and does not cancel
armed grace timers (their closures re-read the fresh state when they fire). -/
def initializeDevice (c : Cfg) (s : Dev) : Dev :=
  { s with
    pending := []
    inFlight := []
    bufferQuota := (c.grblBufferSize : Int)
    skippableOks := 0
    status := "Unknown"
    homing := .off
    resumeEvent := true }

/-- _send (grbl_device.py:881-903): write task.gcode to the serial protocol;
when the command is not an immediate command, deduct task.char_count from the
buffer quota.  Only ever called with a GCodeTask while connected. -/
def sendG (s : Dev) (t : PTask) : Dev × Out :=
  match t with
  | .gcode _ g _ =>
      if is_immediate_grbl_command g then (s, { serial := [g] })
      else ({ s with bufferQuota := s.bufferQuota - (g.length : Int) }, { serial := [g] })
  | .shell _ _ _ _ => (s, {})

/-- _is_homing (grbl_device.py:817-822): the task gcode, stripped and
uppercased, equals $H. -/
def isHomingG (g : String) : Bool := pyUpper (pyStrip g) == "$H"

/-- _get_oldest_gcode_task (grbl_device.py:845-856). -/
def oldestGcodeTask (s : Dev) : Option PTask :=
  match s.inFlight with
  | (PTask.gcode c g r) :: _ => some (.gcode c g r)
  | _ => none

/-- _is_homing_in_flight (grbl_device.py:809-815). -/
def isHomingInFlight (s : Dev) : Bool :=
  match oldestGcodeTask s with
  | some (.gcode _ g _) => isHomingG g
  | _ => false

/-- _respond_to_client (grbl_device.py:858-869): unicast the line to the
client of the oldest in-flight GCode task, when it wants responses. -/
def respondToClient (s : Dev) (line : String) : Out :=
  match oldestGcodeTask s with
  | some t => if t.shouldRespond then { resp := [(t.client, line)] } else {}
  | none => {}

/-- _is_command_allowed_in_alarm (grbl_device.py:824-843): non-GCode tasks are
allowed; a GCodeTask is allowed when its stripped uppercased gcode is $X or
$H. -/
def isCommandAllowedInAlarm : PTask → Bool
  | .shell _ _ _ _ => true
  | .gcode _ g _ =>
      let u := pyUpper (pyStrip g)
      u == "$X" || u == "$H"

/-- _should_swallow_ok (grbl_device.py:795-807): returns whether to swallow
and the state with the counter decremented when it does. -/
def shouldSwallowOk (c : Cfg) (s : Dev) : Bool × Dev :=
  if !c.swallowRealtimeOk || s.skippableOks == 0 then (false, s)
  else (true, { s with skippableOks := s.skippableOks - 1 })

/-- The body of the while loop of _fill_device_buffer (grbl_device.py:359-416)
with the pending queue passed explicitly; returns the final state, the tasks
left in the pending queue, and the effects.  Each iteration checks the loop
condition (running, positive quota, not paused), then the resume event (the
Hold gate: when clear the coroutine suspends at :363 before mutating anything,
so stopping here and re-running the fill on a later scheduler step is
faithful), then peeks the head: an empty queue or a head larger than the quota
breaks.  A GCodeTask head is sent, marks homing Queued when it is $H, and is
appended to the in-flight queue.  A ShellTask head reaches the read of
task.wait_for_idle at :395, which raises AttributeError; the generic handler
at :414 catches it and breaks, after the task was already popped, so the task
is lost.  The dead branches spell out :396-403 for completeness: they
construct the dwell GCodeTask without client_uuid, which raises TypeError,
likewise caught at :414. -/
def fillGo (s : Dev) : List PTask → Dev × List PTask × Out
  | [] => (s, [], {})
  | t :: rest =>
    if s.running && s.bufferQuota > 0 && !s.bufferPaused then
      if !s.resumeEvent then (s, t :: rest, {})
      else if (t.charCount : Int) > s.bufferQuota then (s, t :: rest, {})
      else
        match t with
        | .gcode cl g sr =>
            let (s1, o1) := sendG s (.gcode cl g sr)
            let s2 := if isHomingG g then { s1 with homing := .queued } else s1
            let s3 := { s2 with inFlight := s2.inFlight ++ [PTask.gcode cl g sr] }
            let (s4, left, o2) := fillGo s3 rest
            (s4, left, (Out.app o1 { sent := [PTask.gcode cl g sr] }).app o2)
        | .shell cl tid cmd sr =>
            match PTask.waitForIdleAttr (.shell cl tid cmd sr) with
            | .error _ => (s, rest, {})
            | .ok true =>
                let sP := { s with bufferPaused := true }
                match mkGCodeTaskNoClient "G4 P0\n" false with
                | .error _ => (sP, rest, {})
                | .ok dwell =>
                    let sD := { sP with inFlight := sP.inFlight ++ [dwell] }
                    let (s1, o1) := sendG sD dwell
                    let s2 := { s1 with inFlight := s1.inFlight ++ [PTask.shell cl tid cmd sr] }
                    let (s3, left, o2) := fillGo s2 rest
                    (s3, left, (Out.app o1 { sent := [dwell, PTask.shell cl tid cmd sr] }).app o2)
            | .ok false =>
                let s1 := { s with inFlight := s.inFlight ++ [PTask.shell cl tid cmd sr] }
                let (s2, left, o2) := fillGo s1 rest
                (s2, left, Out.app { sent := [PTask.shell cl tid cmd sr] } o2)
    else (s, t :: rest, {})

/-- _drain_non_gcode_tasks (grbl_device.py:765-793): while the head of the
in-flight queue is not a GCodeTask, pop it; the read of
shell_task.wait_for_idle at :777 raises AttributeError outside any handler,
so the popped task is lost, the shell command is never executed (the try
around execute starts only at :783) and the exception escapes the drain. -/
def drainNonGcode (s : Dev) : Dev × Out :=
  match s.inFlight with
  | (PTask.shell cl tid cmd sr) :: rest =>
      match PTask.waitForIdleAttr (.shell cl tid cmd sr) with
      | .error _ => ({ s with inFlight := rest }, { raised := true })
      | .ok _ => ({ s with inFlight := rest }, { execs := [cmd] })
  | _ => (s, {})

/-- _fill_device_buffer: run the fill loop over the pending queue, then drain
non-GCode tasks (grbl_device.py:418-420; the drain call sits outside the try
of the loop body). -/
def fillDeviceBuffer (s : Dev) : Dev × Out :=
  let r := fillGo { s with pending := [] } s.pending
  let s2 := { r.1 with pending := r.2.1 }
  let d := drainNonGcode s2
  (d.1, r.2.2.app d.2)

/-- _handle_task_completion (grbl_device.py:713-763): with no in-flight task,
log and return; otherwise pop the oldest task, credit its char_count back when
it is a non-immediate GCodeTask, set homing Off when it is the $H task,
unicast the response line to its client when it wants responses, drain
non-GCode tasks and refill the buffer.  The success flag is unused by the
body.  When the drain raises, the refill at :763 is skipped and the exception
escapes. -/
def handleTaskCompletion (s : Dev) (line : String) (_success : Bool) : Dev × Out :=
  match s.inFlight with
  | [] => (s, {})
  | t :: rest =>
    let s1 := { s with inFlight := rest }
    let s2 :=
      match t with
      | .gcode _ g _ =>
          let sq :=
            if is_immediate_grbl_command g then s1
            else { s1 with bufferQuota := s1.bufferQuota + (g.length : Int) }
          if isHomingG g then { sq with homing := .off } else sq
      | .shell _ _ _ _ => s1
    let o1 : Out :=
      { resp := if t.shouldRespond then [(t.client, line)] else [], acked := [t] }
    let d := drainNonGcode s2
    if d.2.raised then (d.1, o1.app d.2)
    else
      let f := fillDeviceBuffer d.1
      (f.1, (o1.app d.2).app f.2)

/-- _handle_state_update (grbl_device.py:661-711): parse the status word and
store it; on a change, notify the trigger engine (modelled separately); the
redundancy check at :686 compares the GrblDeviceState object itself to the
string Alarm and is therefore always false, so it never reinitializes; when
homing is Queued and the status went from Home to Idle, set homing Complete
and create the 200 ms grace task (count one more armed timer). -/
def handleStateUpdate (s : Dev) (line : String) : Dev × Out :=
  let old := s.status
  let new := parseStateStr line
  let s1 := { s with status := new }
  if new != old then
    if s1.homing == .queued && old == "Home" && new == "Idle" then
      ({ s1 with homing := .complete, graceTimers := s1.graceTimers + 1 }, {})
    else (s1, {})
  else (s1, {})

/-- The closure complete_homing_task of grbl_device.py:701-711 firing after
its 200 ms sleep: when the oldest in-flight task is still the $H task and
homing is still Complete, complete it with a synthesized ok; otherwise do
nothing.  Consumes one armed timer. -/
def graceFire (s : Dev) : Dev × Out :=
  if s.graceTimers == 0 then (s, {})
  else
    let s0 := { s with graceTimers := s.graceTimers - 1 }
    if isHomingInFlight s0 && s0.homing == .complete then
      handleTaskCompletion s0 "ok" true
    else (s0, {})

/-- _handle_ok_response (grbl_device.py:569-582). -/
def handleOkResponse (c : Cfg) (s : Dev) (line : String) : Dev × Out :=
  let sw := shouldSwallowOk c s
  if sw.1 then (sw.2, {}) else handleTaskCompletion sw.2 line true

/-- _handle_response_line (grbl_device.py:524-567) in the default FORWARD
status mode: dispatch a cleaned device line by its prefix. -/
def handleResponseLine (c : Cfg) (s : Dev) (line : String) : Dev × Out :=
  if pyStartsWith line "ok" then handleOkResponse c s line
  else if pyStartsWith line "error:" then handleTaskCompletion s line false
  else if pyStartsWith line "ALARM:" then
    let s1 := { s with status := "Alarm" }
    (initializeDevice c s1, { casts := [line] })
  else if pyStartsWith line "<" then
    let o := respondToClient s line
    let u := handleStateUpdate s line
    (u.1, o.app u.2)
  else if pyStartsWith line "[" then (s, { casts := [line] })
  else if pyStartsWith line "$" then (s, respondToClient s line)
  else if subStr "Grbl ".data line.data then (initializeDevice c s, { casts := [line] })
  else (s, {})

/-- _handle_realtime_commands (grbl_device.py:584-659): only GCodeTasks can be
real-time.  A stripped gcode equal to the 0x18 byte or the literal text 0x18
reinitializes the device; a question mark is pushed at the head of the
in-flight queue (forward mode); an exclamation mark preemptively sets Hold and
clears the resume event; a tilde preemptively sets Run and sets the resume
event.  Every branch then constructs `GCodeTask(gcode=gcode)` without
client_uuid (:624 or :658), which raises TypeError before anything is written
to the serial port; the dead branch spells out the send that would follow. -/
def handleRealtimeCommands (c : Cfg) (s : Dev) (t : PTask) : Option (Dev × Out) :=
  match t with
  | .shell _ _ _ _ => none
  | .gcode cl g sr =>
    let gs := pyStrip g
    let finish : Dev → Dev × Out := fun sNext =>
      match mkGCodeTaskNoClient gs true with
      | .error _ => (sNext, { raised := true })
      | .ok t2 => sendG sNext t2
    if gs == "\x18" || gs == "0x18" then
      some (finish (initializeDevice c s))
    else if gs == "?" then
      some (finish { s with inFlight := PTask.gcode cl g sr :: s.inFlight })
    else if gs == "!" then
      some (finish { s with status := "Hold", resumeEvent := false })
    else if gs == "~" then
      some (finish { s with status := "Run", resumeEvent := true })
    else none

/-- do_task (grbl_device.py:293-334): reject every task while offline with
`error: device offline` (when it wants a response); otherwise handle real-time
commands; otherwise apply the Alarm admission gate; otherwise enqueue the task
and kick the buffer fill. -/
def doTask (c : Cfg) (s : Dev) (t : PTask) : Dev × Out :=
  if !s.connected then
    (s, { resp := if t.shouldRespond then [(t.client, "error: device offline")] else [] })
  else
    match handleRealtimeCommands c s t with
    | some r => r
    | none =>
      if s.status == "Alarm" && !isCommandAllowedInAlarm t then
        (s, { resp := if t.shouldRespond then [(t.client, "error:9")] else [] })
      else fillDeviceBuffer { s with pending := s.pending ++ [t] }

/-! ## The event trace semantics

One event is one atomic region of the cooperative scheduler touching the
device state.  The environment (TCP clients, the serial device, the clock) is
adversarial: it may admit any task, deliver any cleaned line, wake a suspended
fill coroutine, or fire an armed grace timer, in any order. -/

/-- Scheduler events. -/
inductive Ev
  | admitG (client : Option String) (g : String) (shouldRespond : Bool)
  | admitS (client : Option String) (tid : String) (cmd : String) (shouldRespond : Bool)
  | line (l : String)
  | fill
  | grace
  | liveness
deriving DecidableEq, Repr

/-- One scheduler step.  admitG and admitS are do_task calls on tasks built by
the server (core/server.py:292-297 passes client_uuid, so these constructions
succeed); line is one iteration of _response_loop (which runs only while
running); fill is a resumption of a buffer-fill coroutine; grace is a homing
grace timer firing; liveness is one tick of _liveness_task_loop, whose
`GCodeTask(gcode="?", should_respond=False)` at :471 raises TypeError (caught
at :481) before the send and before skippable_oks is incremented, so the tick
has no effect on the device state. -/
def step (c : Cfg) (s : Dev) : Ev → Dev × Out
  | .admitG cl g sr => doTask c s (mkGCodeTask cl g sr)
  | .admitS cl tid cmd sr => doTask c s (.shell cl tid cmd sr)
  | .line l => if s.running then handleResponseLine c s l else (s, {})
  | .fill => fillDeviceBuffer s
  | .grace => graceFire s
  | .liveness =>
      match mkGCodeTaskNoClient "?" false with
      | .error _ => (s, {})
      | .ok t => sendG s t

/-- Run a trace of events, discarding effects. -/
def run (c : Cfg) (s : Dev) (evs : List Ev) : Dev :=
  evs.foldl (fun st e => (step c st e).1) s

/-- Run a trace of events, accumulating effects. -/
def runOut (c : Cfg) : Dev → List Ev → Dev × Out
  | s, [] => (s, {})
  | s, e :: evs =>
      let r := step c s e
      let r2 := runOut c r.1 evs
      (r2.1, r.2.app r2.2)

/-- The device state right after connect (grbl_device.py:159-223): connected
and running, fresh GrblDeviceState, full quota, empty queues. -/
def initDev (c : Cfg) : Dev :=
  { connected := true
    running := true
    bufferQuota := (c.grblBufferSize : Int)
    inFlight := []
    pending := []
    status := "Unknown"
    homing := .off
    skippableOks := 0
    resumeEvent := true
    bufferPaused := false
    graceTimers := 0 }

/-! ## trigger/trigger.py and trigger/trigger_manager.py

Trigger patterns are compiled regexes applied with re.search.  The triggers
used in the theorems below carry literal patterns (no metacharacters), for
which re.search is exactly substring containment; the match functions below
embed that case. -/

/-- TriggerBehavior from trigger/triggers_config.py. -/
inductive TriggerBehavior
  | forward
  | capture
  | captureNowait
deriving DecidableEq, Repr

/-- A loaded GCode trigger (trigger/trigger.py Trigger): id, literal match
pattern, synchronize flag, behavior, optional device-state restriction and the
shell command. -/
structure GTrig where
  tid : String
  patLit : String
  synchronize : Bool
  behavior : TriggerBehavior
  state : Option String
  command : String
deriving DecidableEq, Repr

/-- Trigger.matches (trigger/trigger.py:59-77): when a state restriction is
configured, the stripped current state must equal it; then the pattern is
searched in the stripped gcode. -/
def GTrig.matches (t : GTrig) (gcode : String) (currentState : Option String) : Bool :=
  (match t.state with
   | none => true
   | some restr =>
       match currentState with
       | none => false
       | some cur => pyStrip cur == restr) &&
  subStr t.patLit.data (pyStrip gcode).data

/-- A loaded state trigger (trigger/trigger.py StateTrigger): id, literal
match pattern, delay in whole seconds (the float delay of the config does not
matter to the claims settled here) and the shell command. -/
structure STrig where
  tid : String
  patLit : String
  delay : Nat
  command : String
deriving DecidableEq, Repr

/-- StateTrigger.matches (trigger/trigger.py:119-131): search the pattern in
the stripped state. -/
def STrig.matches (t : STrig) (state : String) : Bool :=
  subStr t.patLit.data (pyStrip state).data

/-- The inner loop of TriggerManager.build_tasks_for_gcode
(trigger/trigger_manager.py:222-242): for a Forward trigger append a
GCodeTask(client_uuid, gcode, should_respond=True); every trigger then
constructs a ShellTask with the keyword wait_for_idle, which core/task.py does
not define, raising TypeError out of the whole call. -/
def buildGo (client : String) (gcode : String) : List GTrig → List PTask → Except PyErr (List PTask)
  | [], acc => .ok acc
  | t :: ts, acc =>
    let acc1 :=
      if t.behavior == .forward then acc ++ [mkGCodeTask (some client) gcode true] else acc
    match
      mkShellTaskWaitForIdle (some client) t.tid t.command
        (t.behavior != .forward) (t.synchronize && t.behavior != .forward) with
    | .error e => .error e
    | .ok sh => buildGo client gcode ts (acc1 ++ [sh])

/-- TriggerManager.build_tasks_for_gcode (trigger/trigger_manager.py:189-244):
None when no trigger matches; otherwise the task list built per trigger in
config order. -/
def buildTasksForGcode (trigs : List GTrig) (gcode : String) (client : String)
    (currentState : Option String) : Except PyErr (Option (List PTask)) :=
  let matching := trigs.filter (fun t => t.matches gcode currentState)
  if matching.isEmpty then .ok none
  else
    match buildGo client gcode matching [] with
    | .error e => .error e
    | .ok l => .ok (some l)

/-- The pending-state-trigger map of the TriggerManager: trigger id to the
scheduled (not yet fired) execution task. -/
def TrigPending := List (String × STrig)

/-- TriggerManager.on_device_status (trigger/trigger_manager.py:275-323):
first cancel pending triggers whose pattern no longer matches the new state
(consistency, :325-353; ids with no matching definition are kept), then for
each matching trigger replace any pending execution with a fresh one
(singularity) and arm it. -/
def onDeviceStatus (trigs : List STrig) (pend : List (String × STrig)) (state : String) :
    List (String × STrig) :=
  let pend1 := pend.filter (fun p =>
    match trigs.find? (fun t => t.tid == p.1) with
    | some t => t.matches state
    | none => true)
  (trigs.filter (fun t => t.matches state)).foldl
    (fun acc t => acc.filter (fun p => p.1 != t.tid) ++ [(t.tid, t)]) pend1

/-- _execute_state_trigger (trigger/trigger_manager.py:355-397) after its
sleep has elapsed: construct `ShellTask(id=trigger.id, command=trigger.command)`
without client_uuid, which raises TypeError; the `except Exception` at :393
catches it and logs, so no subprocess is ever spawned.  Returns the commands
actually executed. -/
def executeStateTrigger (t : STrig) : List String :=
  match mkShellTaskNoClient t.tid t.command with
  | .error _ => []
  | .ok _ => [t.command]

/-- A pending state-trigger task firing after its delay: execute it and let
the done callback (:318-323) remove it from the pending map. -/
def fireStateTrigger (pend : List (String × STrig)) (tid : String) :
    List (String × STrig) × List String :=
  match pend.find? (fun p => p.1 == tid) with
  | some p => (pend.filter (fun q => q.1 != tid), executeStateTrigger p.2)
  | none => (pend, [])

/-! ## Derived notions used by the theorems -/

/-- The characters currently counted against the device buffer: the sum of
char_count over the non-immediate GCodeTasks of the in-flight queue. -/
def countedChars : List PTask → Nat
  | [] => 0
  | (PTask.gcode _ g _) :: r =>
      (if is_immediate_grbl_command g then 0 else g.length) + countedChars r
  | (PTask.shell _ _ _ _) :: r => countedChars r

/-- The character-counting invariant of the engine: the buffer quota plus the
counted in-flight characters equals grbl_buffer_size, and the quota is never
negative. -/
def InvQ (c : Cfg) (s : Dev) : Prop :=
  s.bufferQuota = (c.grblBufferSize : Int) - (countedChars s.inFlight : Int) ∧
    0 ≤ s.bufferQuota

/-- Events of a run in which completions correspond one to one to sends, used
by the acknowledgement-order claim: admitted gcode is not immediate and not
the literal soft-reset text (so it is neither intercepted as a real-time
command nor exempt from the in-flight queue discipline), and no device line
resets the running state. -/
def evOkForFifo : Ev → Bool
  | .admitG _ g _ =>
      !is_immediate_grbl_command (if g.length != 0 && !(pyEndsWith g "\n") then g ++ "\n" else g)
        && pyStrip (if g.length != 0 && !(pyEndsWith g "\n") then g ++ "\n" else g) != "0x18"
  | .admitS _ _ _ _ => true
  | .line l => !(pyStartsWith l "ALARM:") && !(subStr "Grbl ".data l.data)
  | .fill => true
  | .grace => true
  | .liveness => true

/-- A task of the in-flight queue is a GCodeTask. -/
def allGcode (l : List PTask) : Bool := l.all PTask.isGcode

/-- The default configuration: grbl_buffer_size 128, swallow_realtime_ok. -/
def defaultCfg : Cfg := { grblBufferSize := 128, swallowRealtimeOk := true }

/-- A connected device sitting in the Alarm state. -/
def alarmDev : Dev := { initDev defaultCfg with status := "Alarm" }

/-- A connected device in the Home status with a responding $H task in flight
and homing Queued. -/
def homingArmDev : Dev :=
  { initDev defaultCfg with
      status := "Home"
      homing := Homing.queued
      inFlight := [PTask.gcode (some "c1") "$H\n" true] }

/-- A gcode trigger with behavior Capture on the literal pattern M600. -/
def c6trig : GTrig :=
  { tid := "t1", patLit := "M600", synchronize := false, behavior := .capture,
    state := none, command := "capture.sh" }

/-- A state trigger on the literal pattern Idle with a five-minute delay. -/
def c7trig : STrig :=
  { tid := "idle-off", patLit := "Idle", delay := 300, command := "poweroff.sh" }

/-- The homing run in which the firmware drops the ok: a client admits $H, the
status goes Home then Idle, and the grace timer fires. -/
def homingLostOkRun : List Ev :=
  [.admitG (some "c1") "$H" true, .line "<Home|MPos:0,0,0>", .line "<Idle|MPos:0,0,0>",
   .grace]

/-- The homing run in which the real ok arrives within the grace period,
before the timer fires. -/
def homingRealOkRun : List Ev :=
  [.admitG (some "c1") "$H" true, .line "<Home|MPos:0,0,0>", .line "<Idle|MPos:0,0,0>",
   .line "ok", .grace]

/-- The terminating responses (ok or error:) delivered to the given client. -/
def termRespTo (client : String) (o : Out) : List String :=
  (o.resp.filter (fun p =>
    p.1 == some client && (pyStartsWith p.2 "ok" || pyStartsWith p.2 "error:"))).map (·.2)

/-- The run refuting the acknowledgement-order claim: an immediate command
admitted through the queue, a motion command, then one device ok. -/
def fifoCounterRun : List Ev :=
  [.admitG (some "c1") "M0" true, .admitG (some "c1") "G1 X1" true, .line "ok"]

/-- The non-immediate GCodeTasks of a ghost task list. -/
def nonImmediateSent (l : List PTask) : List PTask :=
  l.filter (fun t =>
    match t with
    | .gcode _ g _ => !is_immediate_grbl_command g
    | .shell _ _ _ _ => false)

/-! ## Helper lemmas -/

/-- Case-insensitive prefix matching is prefix matching of the lowered
lists. -/
theorem ciPfx_eq_pfxEq (t : List Char) : ∀ l : List Char,
    ciPfx t l = pfxEq (t.map Char.toLower) (l.map Char.toLower) := by
  induction t with
  | nil => intro l; cases l <;> rfl
  | cons a as ih => intro l; cases l with
    | nil => rfl
    | cons b bs => simp [ciPfx, pfxEq, ih]

/-- Mapping a function over a list maps it over every suffix. -/
theorem tails_map (f : Char → Char) : ∀ l : List Char,
    (l.map f).tails = l.tails.map (List.map f) := by
  intro l
  induction l with
  | nil => rfl
  | cons a as ih => simp [List.tails_cons, ih]

/-- Membership survives dropWhile. -/
theorem mem_of_mem_dropWhile {p : Char → Bool} {a : Char} :
    ∀ {l : List Char}, a ∈ l.dropWhile p → a ∈ l := by
  intro l
  induction l with
  | nil => intro h; exact h
  | cons b bs ih =>
      intro h
      by_cases hb : p b
      · rw [List.dropWhile_cons_of_pos hb] at h
        exact List.mem_cons_of_mem _ (ih h)
      · rw [List.dropWhile_cons_of_neg hb] at h
        exact h

/-- Membership in the stripped list implies membership in the original. -/
theorem mem_of_mem_pyStripChars {a : Char} {l : List Char} :
    a ∈ pyStripChars l → a ∈ l := by
  intro h
  unfold pyStripChars at h
  rw [List.mem_reverse] at h
  have h2 := mem_of_mem_dropWhile h
  rw [List.mem_reverse] at h2
  exact mem_of_mem_dropWhile h2

/-- A single-character token of the immediate-command alternation appearing
anywhere in the command makes the regex search succeed. -/
theorem reSearch_of_mem {chr : Char} (htok : [chr] ∈ immediateToks) :
    ∀ {l : List Char}, chr ∈ l → reSearchAnyCI immediateToks l = true := by
  intro l
  induction l with
  | nil => intro h; cases h
  | cons b bs ih =>
      intro h
      unfold reSearchAnyCI
      rw [List.tails_cons, List.any_cons]
      rcases List.mem_cons.1 h with rfl | hmem
      · apply Bool.or_eq_true_iff.2
        left
        rw [List.any_eq_true]
        refine ⟨[chr], htok, ?_⟩
        simp [ciPfx]
      · apply Bool.or_eq_true_iff.2
        right
        exact ih hmem

/-- If the stripped command is a given single-character immediate token, the
command is classified immediate. -/
theorem immediate_of_pyStrip_single {chr : Char} (htok : [chr] ∈ immediateToks)
    {g : String} (h : pyStripChars g.data = [chr]) :
    is_immediate_grbl_command g = true := by
  unfold is_immediate_grbl_command
  apply reSearch_of_mem htok
  apply mem_of_mem_pyStripChars
  rw [h]
  exact List.mem_singleton.2 rfl

/-- A non-immediate gcode is not intercepted by _handle_realtime_commands on
any of its single-byte branches (question mark, exclamation mark, tilde, the
0x18 byte), and with the literal text 0x18 also excluded the interception
returns None. -/
theorem realtime_none_of_fifoOk (c : Cfg) (s : Dev) (cl : Option String) (g : String)
    (sr : Bool) (himm : is_immediate_grbl_command g = false)
    (hlit : pyStrip g ≠ "0x18") :
    handleRealtimeCommands c s (.gcode cl g sr) = none := by
  unfold handleRealtimeCommands
  have hx18 : pyStrip g ≠ "\x18" := by
    intro hc
    have : pyStripChars g.data = ['\x18'] := by
      have := congrArg String.data hc
      simpa [pyStrip] using this
    rw [immediate_of_pyStrip_single (by decide) this] at himm
    cases himm
  have hq : pyStrip g ≠ "?" := by
    intro hc
    have : pyStripChars g.data = ['?'] := by
      have := congrArg String.data hc
      simpa [pyStrip] using this
    rw [immediate_of_pyStrip_single (by decide) this] at himm
    cases himm
  have hb : pyStrip g ≠ "!" := by
    intro hc
    have : pyStripChars g.data = ['!'] := by
      have := congrArg String.data hc
      simpa [pyStrip] using this
    rw [immediate_of_pyStrip_single (by decide) this] at himm
    cases himm
  have ht : pyStrip g ≠ "~" := by
    intro hc
    have : pyStripChars g.data = ['~'] := by
      have := congrArg String.data hc
      simpa [pyStrip] using this
    rw [immediate_of_pyStrip_single (by decide) this] at himm
    cases himm
  simp [hx18, hq, hb, ht, hlit]

/-! ## Claim C5 (immediate-command classification) -/

/-- C5 counterexample: is_immediate_grbl_command uses re.search, so M100 is
classified immediate although it is none of the eight tokens; the claim that
is_immediate returns true iff the command is one of the tokens is false at the
command M100. -/
theorem C5_counterexample :
    is_immediate_grbl_command "M100" = true ∧
      "M100" ∉ (["?", "!", "~", "M0", "M1", "M2", "M30", "\x18"] : List String) := by
  constructor
  · rfl
  · decide

/-- C5 amended: is_immediate_grbl_command returns true iff the command
CONTAINS one of the tokens question mark, M0, M1, M2, M30, exclamation mark,
tilde or the 0x18 byte as a case-insensitive substring; and on send exactly
the commands classified immediate are exempt from the buffer-quota deduction
(_send deducts char_count iff the command is not immediate). -/
theorem C5_amended :
    (∀ cmd : String, is_immediate_grbl_command cmd = true ↔
        ∃ t ∈ immediateToks, subStrCI t cmd.data = true) ∧
      (∀ (s : Dev) (cl : Option String) (g : String) (sr : Bool),
        (sendG s (.gcode cl g sr)).1.bufferQuota =
          s.bufferQuota - (if is_immediate_grbl_command g then 0 else (g.length : Int))) := by
  constructor
  · intro cmd
    unfold is_immediate_grbl_command reSearchAnyCI subStrCI subStr
    simp only [List.any_eq_true, ciPfx_eq_pfxEq, tails_map, List.mem_map]
    constructor
    · rintro ⟨suf, hsuf, t, ht, hp⟩
      exact ⟨t, ht, ⟨suf.map Char.toLower, ⟨suf, hsuf, rfl⟩, hp⟩⟩
    · rintro ⟨t, ht, low, ⟨suf, hsuf, rfl⟩, hp⟩
      exact ⟨suf, hsuf, t, ht, hp⟩
  · intro s cl g sr
    unfold sendG
    by_cases h : is_immediate_grbl_command g
    · simp [h]
    · simp [h]

/-! ## Claim C9 (ESP-log stripping) -/

/-- The position scan of the cleaner equals taking the longest suffix matched
by some alternative, on lines free of embedded newlines. -/
theorem grblScan_eq_find_tails :
    ∀ l : List Char, '\n' ∉ l → grblScan l = l.tails.find? grblAlt := by
  intro l
  induction l with
  | nil =>
      intro _
      show grblScan [] = List.find? grblAlt [[]]
      unfold grblScan
      rw [List.find?_cons]
      cases h : grblAlt [] <;> simp [h]
  | cons c rest ih =>
      intro hnl
      rw [List.tails_cons, List.find?_cons]
      unfold grblScan
      cases h : grblAlt (c :: rest) with
      | true => simp [h]
      | false =>
          have hc : (c == '\n') = false := by
            have : c ≠ '\n' := fun hh => hnl (hh ▸ List.mem_cons_self c rest)
            simp [this]
          simp only [h, if_false, hc]
          exact ih (fun hm => hnl (List.mem_cons_of_mem _ hm))

/-- C9 counterexample: the line `ok junk` contains the token ok (and it is the
last token occurrence in the line), yet the cleaner returns the empty string
and the line is dropped, because the regex group is anchored at the end of the
line; the claim that the cleaner returns the last token occurrence (and drops
only token-free lines) is false at this line. -/
theorem C9_counterexample :
    clean_grbl_response "ok junk" = "" ∧
      lastTokOcc (pyStripChars "ok junk".data) = some ['o', 'k'] := by
  constructor
  · rfl
  · rfl

/-- C9 amended: on lines without embedded newlines (every serial line, since
the codec splits on newlines), the cleaner returns the longest suffix of the
stripped line matching one of the token alternatives (a GRBL terminator ok,
error:digits or ALARM:digits, a status report, an MSG message, a setting echo,
a version banner, or a decimal number digits.digits), stripped again, and the
empty string when no suffix matches; in particular `I (123) tag: ok` cleans to
ok. -/
theorem C9_amended :
    (∀ raw : String, '\n' ∉ pyStripChars raw.data →
        clean_grbl_response raw = cleanSpecLongestSuffix raw) ∧
      clean_grbl_response "I (123) tag: ok" = "ok" := by
  constructor
  · intro raw h
    unfold clean_grbl_response cleanSpecLongestSuffix
    rw [grblScan_eq_find_tails _ h]
  · rfl

/-- Witness for C9_amended at a concrete log-mangled line. -/
theorem C9_amended_witness :
    '\n' ∉ pyStripChars "E (456) tag: error:5".data ∧
      clean_grbl_response "E (456) tag: error:5" =
        cleanSpecLongestSuffix "E (456) tag: error:5" :=
  ⟨by decide, C9_amended.1 "E (456) tag: error:5" (by decide)⟩

/-! ## Claim C10 (spurious acknowledgements) -/

/-- C10: a device ok or error line handled while the in-flight queue is empty
leaves the whole device state unchanged (buffer quota, in-flight queue,
pending queue, skippable-ok counter, status, homing) and produces no output at
all: _handle_task_completion returns at its empty-queue guard.  Stated for the
completion handler on an arbitrary state whose in-flight queue is empty and an
arbitrary response line. -/
theorem C10_spurious_ack_frame (s : Dev) (line : String) (success : Bool) :
    handleTaskCompletion { s with inFlight := [] } line success =
      ({ s with inFlight := [] }, {}) := rfl

/-! ## Claim C6 (trigger task construction) -/

/-- C6: build_tasks_for_gcode cannot emit the tasks the claim describes.  For
every matching trigger it constructs a ShellTask with the keyword argument
wait_for_idle (trigger_manager.py:233-242), but core/task.py defines ShellTask
without that field, so the call raises TypeError instead of returning a task
list; with no matching trigger it returns None as documented.  Evaluated at a
Capture trigger on the literal pattern M600. -/
theorem C6_build_tasks_raises :
    buildTasksForGcode [c6trig] "M600" "c1" (some "Idle") = .error .typeError ∧
      buildTasksForGcode [c6trig] "G0 X1" "c1" (some "Idle") = .ok none := by
  constructor
  · rfl
  · rfl

/-! ## Claim C7 (state-trigger debounce) -/

/-- C7: the debounce machinery arms a pending execution for a matching state
trigger, but when the timer fires _execute_state_trigger constructs
`ShellTask(id=..., command=...)` without client_uuid
(trigger_manager.py:374), which raises TypeError, is caught at :393 and
logged, so the shell command never runs: with the Idle trigger armed by an
Idle transition, firing it executes no command.  The claim that the command
runs after the state has matched for delay seconds is false for every
trigger. -/
theorem C7_state_trigger_never_runs :
    onDeviceStatus [c7trig] [] "Idle" = [("idle-off", c7trig)] ∧
      (fireStateTrigger (onDeviceStatus [c7trig] [] "Idle") "idle-off").2 = [] ∧
      (fireStateTrigger (onDeviceStatus [c7trig] [] "Idle") "idle-off").1 = [] := by
  refine ⟨rfl, rfl, rfl⟩

/-! ## Claim C8 (offline task semantics) -/

/-- C8 counterexample: while the device is offline a submitted ShellTask is
rejected exactly like a GCodeTask: its client receives `error: device offline`
and its shell command is not executed; the claim that ShellTasks execute
normally while offline is false at this task. -/
theorem C8_counterexample :
    (doTask defaultCfg { initDev defaultCfg with connected := false }
        (.shell (some "c1") "t1" "beep.sh" true)).2 =
      { resp := [(some "c1", "error: device offline")] } ∧
      (doTask defaultCfg { initDev defaultCfg with connected := false }
        (.shell (some "c1") "t1" "beep.sh" true)).2.execs = [] := by
  constructor
  · rfl
  · rfl

/-- C8 amended: whenever the device is not connected, EVERY submitted task
(GCodeTask or ShellTask) that requires a response receives exactly the
response `error: device offline`, and the task is neither queued, nor sent,
nor executed: do_task returns at its offline guard with the state unchanged
and no other effect. -/
theorem C8_amended (c : Cfg) (s : Dev) (t : PTask) (h : s.connected = false) :
    doTask c s t =
      (s, { resp := if t.shouldRespond then [(t.client, "error: device offline")] else [] }) := by
  unfold doTask
  simp [h]

/-- Witness for C8_amended at an offline device and a responding GCodeTask. -/
theorem C8_amended_witness :
    ({ initDev defaultCfg with connected := false } : Dev).connected = false ∧
      doTask defaultCfg { initDev defaultCfg with connected := false }
          (mkGCodeTask (some "c1") "G0 X1" true) =
        ({ initDev defaultCfg with connected := false },
          { resp := [(some "c1", "error: device offline")] }) :=
  ⟨rfl, C8_amended defaultCfg _ _ rfl⟩

/-! ## Effect-shape lemmas for the fill loop and the drain -/

/-- _send emits exactly one serial write and nothing else. -/
theorem sendG_shape (s : Dev) (cl : Option String) (g : String) (sr : Bool) :
    ∃ s' : Dev, sendG s (.gcode cl g sr) = (s', { serial := [g] }) := by
  by_cases h : is_immediate_grbl_command g
  · exact ⟨s, by simp [sendG, h]⟩
  · exact ⟨{ s with bufferQuota := s.bufferQuota - (g.length : Int) }, by simp [sendG, h]⟩

/-- The fill loop emits only serial writes and sent-ghost entries. -/
theorem fillGo_shape : ∀ (p : List PTask) (s : Dev),
    ∃ w ts, (fillGo s p).2.2 = { serial := w, sent := ts } := by
  intro p
  induction p with
  | nil => exact fun s => ⟨[], [], rfl⟩
  | cons t rest ih =>
      intro s
      cases t with
      | gcode cl g sr =>
          obtain ⟨s', hs⟩ := sendG_shape s cl g sr
          simp only [fillGo, hs]
          split
          · split
            · exact ⟨[], [], rfl⟩
            · split
              · exact ⟨[], [], rfl⟩
              · obtain ⟨w, ts, hrec⟩ := ih _
                rw [hrec]
                exact ⟨[g] ++ w, [PTask.gcode cl g sr] ++ ts, rfl⟩
          · exact ⟨[], [], rfl⟩
      | shell cl tid cmd sr =>
          simp only [fillGo, PTask.waitForIdleAttr]
          split
          · split
            · exact ⟨[], [], rfl⟩
            · split
              · exact ⟨[], [], rfl⟩
              · exact ⟨[], [], rfl⟩
          · exact ⟨[], [], rfl⟩

/-- The drain emits nothing but possibly an escaping exception. -/
theorem drain_shape (s : Dev) : ∃ r, (drainNonGcode s).2 = { raised := r } := by
  unfold drainNonGcode
  split
  · exact ⟨true, rfl⟩
  · exact ⟨false, rfl⟩

/-- _fill_device_buffer emits only serial writes, sent-ghost entries and
possibly an escaping exception. -/
theorem fillDeviceBuffer_shape (s : Dev) :
    ∃ w ts r, (fillDeviceBuffer s).2 = { serial := w, sent := ts, raised := r } := by
  obtain ⟨w, ts, h1⟩ := fillGo_shape s.pending { s with pending := [] }
  obtain ⟨r, h2⟩ := drain_shape
    { (fillGo { s with pending := [] } s.pending).1 with
      pending := (fillGo { s with pending := [] } s.pending).2.1 }
  refine ⟨w, ts, r, ?_⟩
  have hd : (fillDeviceBuffer s).2 =
      ((fillGo { s with pending := [] } s.pending).2.2).app
        (drainNonGcode
          { (fillGo { s with pending := [] } s.pending).1 with
            pending := (fillGo { s with pending := [] } s.pending).2.1 }).2 := rfl
  rw [hd, h1, h2]
  simp [Out.app]

/-! ## Claim C3 (alarm gating) -/

/-- C3 counterexample: real-time commands are intercepted BEFORE the alarm
gate (do_task checks _handle_realtime_commands first), so a GCodeTask with
body `!` admitted in the Alarm state, whose trimmed body is neither $X nor $H,
receives no error:9 at all: its interception preemptively sets Hold and then
raises TypeError constructing the untracked send task.  The claim as stated is
false at this task. -/
theorem C3_counterexample :
    (doTask defaultCfg alarmDev (mkGCodeTask (some "c1") "!" true)).2.resp = [] ∧
      (doTask defaultCfg alarmDev (mkGCodeTask (some "c1") "!" true)).1.status = "Hold" ∧
      pyUpper (pyStrip "!\n") ∉ (["$X", "$H"] : List String) := by
  refine ⟨rfl, rfl, by decide⟩

/-- C3 amended: for every GCodeTask admitted while the device status is Alarm
whose trimmed body is neither $X nor $H (case-insensitively) AND is not one of
the real-time bodies (the 0x18 byte, the literal text 0x18, question mark,
exclamation mark, tilde), do_task replies error:9 to the originating client
exactly when the task wants a response, writes nothing to the serial port,
queues nothing and leaves the state unchanged; ShellTasks pass the alarm gate
(_is_command_allowed_in_alarm accepts them) and are never answered with
error:9. -/
theorem C3_amended :
    (∀ (c : Cfg) (s : Dev) (cl : Option String) (g : String) (sr : Bool),
      s.connected = true → s.status = "Alarm" →
      pyStrip g ∉ (["\x18", "0x18", "?", "!", "~"] : List String) →
      pyUpper (pyStrip g) ∉ (["$X", "$H"] : List String) →
      doTask c s (.gcode cl g sr) =
        (s, { resp := if sr then [(cl, "error:9")] else [] })) ∧
    (∀ (cl : Option String) (tid cmd : String) (sr : Bool),
      isCommandAllowedInAlarm (.shell cl tid cmd sr) = true) ∧
    (∀ (c : Cfg) (s : Dev) (cl : Option String) (tid cmd : String) (sr : Bool),
      s.connected = true →
      (doTask c s (.shell cl tid cmd sr)).2.resp = []) := by
  refine ⟨?_, ?_, ?_⟩
  · intro c s cl g sr hconn hstat hrt hax
    have h1 : pyStrip g ≠ "\x18" := fun h => hrt (by rw [h]; decide)
    have h2 : pyStrip g ≠ "0x18" := fun h => hrt (by rw [h]; decide)
    have h3 : pyStrip g ≠ "?" := fun h => hrt (by rw [h]; decide)
    have h4 : pyStrip g ≠ "!" := fun h => hrt (by rw [h]; decide)
    have h5 : pyStrip g ≠ "~" := fun h => hrt (by rw [h]; decide)
    have hx : pyUpper (pyStrip g) ≠ "$X" := fun h => hax (by rw [h]; decide)
    have hh : pyUpper (pyStrip g) ≠ "$H" := fun h => hax (by rw [h]; decide)
    have hrtnone : handleRealtimeCommands c s (.gcode cl g sr) = none := by
      unfold handleRealtimeCommands
      simp [h1, h2, h3, h4, h5]
    unfold doTask
    rw [hconn, hrtnone]
    simp [hstat, isCommandAllowedInAlarm, hx, hh, PTask.shouldRespond, PTask.client]
  · intro cl tid cmd sr
    rfl
  · intro c s cl tid cmd sr hconn
    have hrt : handleRealtimeCommands c s (.shell cl tid cmd sr) = none := rfl
    have hal : isCommandAllowedInAlarm (.shell cl tid cmd sr) = true := rfl
    unfold doTask
    rw [hconn, hrt]
    obtain ⟨w, ts, r, hf⟩ :=
      fillDeviceBuffer_shape { s with pending := s.pending ++ [PTask.shell cl tid cmd sr] }
    rw [hconn] at hf
    simp [hal, hf]

/-- Witness for C3_amended at the command G0 X0 admitted in the Alarm
state. -/
theorem C3_amended_witness :
    (alarmDev.connected = true ∧ alarmDev.status = "Alarm" ∧
        pyStrip "G0 X0\n" ∉ (["\x18", "0x18", "?", "!", "~"] : List String) ∧
        pyUpper (pyStrip "G0 X0\n") ∉ (["$X", "$H"] : List String)) ∧
      doTask defaultCfg alarmDev (.gcode (some "c1") "G0 X0\n" true) =
        (alarmDev, { resp := [(some "c1", "error:9")] }) :=
  ⟨⟨rfl, rfl, by decide, by decide⟩,
    C3_amended.1 defaultCfg alarmDev (some "c1") "G0 X0\n" true rfl rfl
      (by decide) (by decide)⟩

/-! ## Claim C1 (character-counting invariant) -/

/-- Counted characters distribute over concatenation. -/
theorem countedChars_append (a b : List PTask) :
    countedChars (a ++ b) = countedChars a + countedChars b := by
  induction a with
  | nil => simp [countedChars]
  | cons t r ih => cases t <;> (simp [countedChars, ih]; try omega)

/-- The invariant only reads the buffer quota and the in-flight queue. -/
theorem InvQ_of_eq (c : Cfg) {s1 s2 : Dev} (hq : s2.bufferQuota = s1.bufferQuota)
    (hf : s2.inFlight = s1.inFlight) (h : InvQ c s1) : InvQ c s2 := by
  unfold InvQ at h ⊢
  rw [hq, hf]
  exact h

/-- The fill loop preserves the character-counting invariant: each send
deducts exactly the characters it appends to the in-flight queue, under the
guard that the head fits in the quota. -/
theorem fillGo_inv (c : Cfg) : ∀ (p : List PTask) (s : Dev),
    InvQ c s → InvQ c (fillGo s p).1 := by
  intro p
  induction p with
  | nil => intro s h; exact h
  | cons t rest ih =>
      intro s h
      cases t with
      | gcode cl g sr =>
          simp only [fillGo]
          split
          · split
            · exact h
            · split
              · exact h
              · rename_i hcond hres hbig
                have hle : ((PTask.gcode cl g sr).charCount : Int) ≤ s.bufferQuota := by
                  simpa using hbig
                by_cases himm : is_immediate_grbl_command g = true
                · simp only [sendG, himm, if_true]
                  by_cases hhom : isHomingG g = true
                  · simp only [hhom, if_true]
                    apply ih
                    refine ⟨?_, h.2⟩
                    simp only [countedChars_append]
                    simp [countedChars, himm, h.1]
                  · simp only [hhom, Bool.false_eq_true, if_false]
                    apply ih
                    refine ⟨?_, h.2⟩
                    simp only [countedChars_append]
                    simp [countedChars, himm, h.1]
                · simp only [sendG, himm, Bool.false_eq_true, if_false]
                  have hq := h.1
                  have hp := h.2
                  by_cases hhom : isHomingG g = true
                  · simp only [hhom, if_true]
                    apply ih
                    constructor
                    · simp only [countedChars_append]
                      simp [countedChars, himm]
                      omega
                    · simp only []
                      simp only [PTask.charCount] at hle
                      omega
                  · simp only [hhom, Bool.false_eq_true, if_false]
                    apply ih
                    constructor
                    · simp only [countedChars_append]
                      simp [countedChars, himm]
                      omega
                    · simp only []
                      simp only [PTask.charCount] at hle
                      omega
          · exact h
      | shell cl tid cmd sr =>
          simp only [fillGo, PTask.waitForIdleAttr]
          split
          · split
            · exact h
            · split
              · exact h
              · exact h
          · exact h

/-- The drain preserves the invariant (a popped ShellTask counts for zero
characters). -/
theorem drain_inv (c : Cfg) (s : Dev) (h : InvQ c s) : InvQ c (drainNonGcode s).1 := by
  unfold drainNonGcode
  split
  · rename_i cl tid cmd sr rest heq
    refine ⟨?_, h.2⟩
    have := h.1
    rw [heq] at this
    simpa [countedChars] using this
  · exact h

/-- _fill_device_buffer preserves the invariant. -/
theorem fillDeviceBuffer_inv (c : Cfg) (s : Dev) (h : InvQ c s) :
    InvQ c (fillDeviceBuffer s).1 := by
  have h1 : InvQ c { s with pending := ([] : List PTask) } :=
    InvQ_of_eq c rfl rfl h
  have h2 := fillGo_inv c s.pending _ h1
  have h3 : InvQ c
      { (fillGo { s with pending := [] } s.pending).1 with
        pending := (fillGo { s with pending := [] } s.pending).2.1 } :=
    InvQ_of_eq c rfl rfl h2
  exact drain_inv c _ h3

/-- _handle_task_completion preserves the invariant: the credit restores
exactly what the pop removes from the counted characters. -/
theorem completion_inv (c : Cfg) (s : Dev) (line : String) (succ : Bool)
    (h : InvQ c s) : InvQ c (handleTaskCompletion s line succ).1 := by
  rcases hin : s.inFlight with _ | ⟨t, rest⟩
  · unfold handleTaskCompletion
    rw [hin]
    exact h
  · unfold handleTaskCompletion
    rw [hin]
    have hq := h.1
    rw [hin] at hq
    have hs2 : ∀ (s2 : Dev) (o1 o2 : Out), InvQ c s2 →
        InvQ c ((if (drainNonGcode s2).2.raised = true then ((drainNonGcode s2).1, o1)
          else ((fillDeviceBuffer (drainNonGcode s2).1).1, o2)).1) := by
      intro s2 o1 o2 h2
      split
      · exact drain_inv c s2 h2
      · exact fillDeviceBuffer_inv c _ (drain_inv c s2 h2)
    cases t with
    | gcode cl g sr =>
        simp only []
        by_cases himm : is_immediate_grbl_command g = true
        · simp only [himm, if_true]
          by_cases hhom : isHomingG g = true
          · simp only [hhom, if_true]
            apply hs2
            refine ⟨?_, h.2⟩
            simp only []
            simp [countedChars, himm] at hq ⊢
            omega
          · simp only [hhom, Bool.false_eq_true, if_false]
            apply hs2
            refine ⟨?_, h.2⟩
            simp [countedChars, himm] at hq ⊢
            omega
        · simp only [himm, Bool.false_eq_true, if_false]
          by_cases hhom : isHomingG g = true
          · simp only [hhom, if_true]
            apply hs2
            constructor
            · simp [countedChars, himm] at hq ⊢
              omega
            · simp only []
              have := h.2
              omega
          · simp only [hhom, Bool.false_eq_true, if_false]
            apply hs2
            constructor
            · simp [countedChars, himm] at hq ⊢
              omega
            · simp only []
              have := h.2
              omega
    | shell cl tid cmd sr =>
        simp only []
        apply hs2
        refine ⟨?_, h.2⟩
        simpa [countedChars] using hq

/-- A state update changes neither the quota nor the in-flight queue. -/
theorem stateUpdate_fields (s : Dev) (l : String) :
    (handleStateUpdate s l).1.bufferQuota = s.bufferQuota ∧
      (handleStateUpdate s l).1.inFlight = s.inFlight := by
  unfold handleStateUpdate
  dsimp only
  split
  · split
    · exact ⟨rfl, rfl⟩
    · exact ⟨rfl, rfl⟩
  · exact ⟨rfl, rfl⟩

/-- The homing grace timer preserves the invariant. -/
theorem graceFire_inv (c : Cfg) (s : Dev) (h : InvQ c s) : InvQ c (graceFire s).1 := by
  unfold graceFire
  split
  · exact h
  · dsimp only
    split
    · exact completion_inv c _ _ _ (InvQ_of_eq c rfl rfl h)
    · exact InvQ_of_eq c rfl rfl h

/-- Real-time interception preserves the invariant: a reset restores the full
quota with an empty queue; a forwarded question mark inserts a task that is
immediate (its stripped body is the question mark, which the classifier finds
in the command) and therefore uncounted; hold and resume touch neither the
quota nor the queue. -/
theorem realtime_inv (c : Cfg) (s : Dev) (t : PTask) (r : Dev × Out)
    (hr : handleRealtimeCommands c s t = some r) (h : InvQ c s) : InvQ c r.1 := by
  cases t with
  | shell cl tid cmd sr => cases hr
  | gcode cl g sr =>
      unfold handleRealtimeCommands at hr
      dsimp only at hr
      split at hr
      · cases hr
        show InvQ c (initializeDevice c s)
        refine ⟨?_, ?_⟩ <;> simp [initializeDevice, countedChars]
      · split at hr
        · rename_i hq
          cases hr
          show InvQ c { s with inFlight := PTask.gcode cl g sr :: s.inFlight }
          have hqs : pyStrip g = "?" := by simpa using hq
          have hdata : pyStripChars g.data = ['?'] := by
            have := congrArg String.data hqs
            simpa [pyStrip] using this
          have himm := immediate_of_pyStrip_single (by decide) hdata
          have hc : countedChars (PTask.gcode cl g sr :: s.inFlight) =
              countedChars s.inFlight := by
            simp [countedChars, himm]
          refine ⟨?_, h.2⟩
          show s.bufferQuota = (c.grblBufferSize : Int) -
            (countedChars (PTask.gcode cl g sr :: s.inFlight) : Int)
          rw [hc]
          exact h.1
        · split at hr
          · cases hr
            show InvQ c { s with status := "Hold", resumeEvent := false }
            exact ⟨h.1, h.2⟩
          · split at hr
            · cases hr
              show InvQ c { s with status := "Run", resumeEvent := true }
              exact ⟨h.1, h.2⟩
            · cases hr

/-- do_task preserves the invariant. -/
theorem doTask_inv (c : Cfg) (s : Dev) (t : PTask) (h : InvQ c s) :
    InvQ c (doTask c s t).1 := by
  unfold doTask
  split
  · exact h
  · rcases hrt : handleRealtimeCommands c s t with _ | r
    · simp only [hrt]
      split
      · exact h
      · exact fillDeviceBuffer_inv c _ (InvQ_of_eq c rfl rfl h)
    · simp only [hrt]
      exact realtime_inv c s t r hrt h

/-- _handle_response_line preserves the invariant. -/
theorem responseLine_inv (c : Cfg) (s : Dev) (l : String) (h : InvQ c s) :
    InvQ c (handleResponseLine c s l).1 := by
  unfold handleResponseLine handleOkResponse shouldSwallowOk
  split
  · split
    · show InvQ c (handleTaskCompletion s l true).1
      exact completion_inv c s l true h
    · show InvQ c ({ s with skippableOks := s.skippableOks - 1 } : Dev)
      exact InvQ_of_eq c rfl rfl h
  · split
    · exact completion_inv c _ _ _ h
    · split
      · refine ⟨?_, ?_⟩ <;> simp [initializeDevice, countedChars]
      · split
        · have hf := stateUpdate_fields s l
          exact InvQ_of_eq c hf.1 hf.2 h
        · split
          · exact h
          · split
            · exact h
            · split
              · refine ⟨?_, ?_⟩ <;> simp [initializeDevice, countedChars]
              · exact h

/-- Every scheduler step preserves the invariant. -/
theorem step_inv (c : Cfg) (s : Dev) (e : Ev) (h : InvQ c s) :
    InvQ c (step c s e).1 := by
  cases e with
  | admitG cl g sr => exact doTask_inv c s _ h
  | admitS cl tid cmd sr => exact doTask_inv c s _ h
  | line l =>
      simp only [step]
      split
      · exact responseLine_inv c s l h
      · exact h
  | fill => exact fillDeviceBuffer_inv c s h
  | grace => exact graceFire_inv c s h
  | liveness => exact h

/-- C1: in every run of the engine from a fresh connection, at every step
boundary (the atomic regions between suspension points), the sum of
char_count over the non-immediate in-flight GCodeTasks plus buffer_quota
equals grbl_buffer_size, and consequently the counted in-flight characters
never exceed grbl_buffer_size.  Sending a non-immediate task deducts its
char_count (see sendG) and each completion of a non-immediate GCodeTask
credits it back (see handleTaskCompletion); both facts are what the
preservation argument checks at the send and completion steps. -/
theorem C1_character_counting_invariant (c : Cfg) (evs : List Ev) :
    (run c (initDev c) evs).bufferQuota =
        (c.grblBufferSize : Int) - (countedChars (run c (initDev c) evs).inFlight : Int) ∧
      countedChars (run c (initDev c) evs).inFlight ≤ c.grblBufferSize := by
  have hrun : ∀ (l : List Ev) (s : Dev), InvQ c s → InvQ c (run c s l) := by
    intro l
    induction l with
    | nil => intro s h; exact h
    | cons e es ih =>
        intro s h
        simp only [run, List.foldl_cons]
        exact ih _ (step_inv c s e h)
  have h0 : InvQ c (initDev c) := by
    refine ⟨?_, ?_⟩ <;> simp [initDev, countedChars]
  obtain ⟨h1, h2⟩ := hrun evs (initDev c) h0
  refine ⟨h1, ?_⟩
  omega

/-! ## Claim C2 (acknowledgement order) -/

/-- _send does not touch the in-flight queue. -/
theorem sendG_inFlight (s : Dev) (cl : Option String) (g : String) (sr : Bool) :
    (sendG s (.gcode cl g sr)).1.inFlight = s.inFlight := by
  simp only [sendG]
  split <;> rfl

/-- The fill loop pops nothing from the in-flight queue. -/
theorem fillGo_acked : ∀ (p : List PTask) (s : Dev), (fillGo s p).2.2.acked = [] := by
  intro p
  induction p with
  | nil => intro s; rfl
  | cons t rest ih =>
      intro s
      cases t with
      | gcode cl g sr =>
          obtain ⟨s', hs⟩ := sendG_shape s cl g sr
          simp only [fillGo, hs]
          split
          · split
            · rfl
            · split
              · rfl
              · split <;> simp [Out.app, ih]
          · rfl
      | shell cl tid cmd sr =>
          simp only [fillGo, PTask.waitForIdleAttr]
          split
          · split
            · rfl
            · split
              · rfl
              · rfl
          · rfl

/-- The fill loop appends exactly its sent tasks at the tail of the in-flight
queue, in send order. -/
theorem fillGo_inFlight : ∀ (p : List PTask) (s : Dev),
    (fillGo s p).1.inFlight = s.inFlight ++ (fillGo s p).2.2.sent := by
  intro p
  induction p with
  | nil => intro s; simp [fillGo]
  | cons t rest ih =>
      intro s
      cases t with
      | gcode cl g sr =>
          obtain ⟨s', hs⟩ := sendG_shape s cl g sr
          have hsf : s'.inFlight = s.inFlight := by
            have := sendG_inFlight s cl g sr
            rw [hs] at this
            exact this
          simp only [fillGo, hs]
          split
          · split
            · simp
            · split
              · simp
              · split <;> (rw [ih]; simp [Out.app, hsf, List.append_assoc])
          · simp
      | shell cl tid cmd sr =>
          simp only [fillGo, PTask.waitForIdleAttr]
          split
          · split
            · simp
            · split
              · simp
              · simp
          · simp

/-- Every task the fill loop sends is a GCodeTask (the ShellTask arm breaks
with its AttributeError before appending). -/
theorem fillGo_sent_gcode : ∀ (p : List PTask) (s : Dev),
    allGcode (fillGo s p).2.2.sent = true := by
  intro p
  induction p with
  | nil => intro s; rfl
  | cons t rest ih =>
      intro s
      simp only [allGcode] at ih ⊢
      cases t with
      | gcode cl g sr =>
          obtain ⟨s', hs⟩ := sendG_shape s cl g sr
          simp only [fillGo, hs]
          split
          · split
            · rfl
            · split
              · rfl
              · split <;> simp [Out.app, PTask.isGcode, ih]
          · rfl
      | shell cl tid cmd sr =>
          simp only [fillGo, PTask.waitForIdleAttr]
          split
          · split
            · rfl
            · split
              · rfl
              · rfl
          · rfl

/-- With an all-GCode in-flight queue the drain is the identity with no
effect. -/
theorem drain_id_of_allGcode (s : Dev) (hg : allGcode s.inFlight = true) :
    drainNonGcode s = (s, {}) := by
  unfold drainNonGcode
  split
  · rename_i cl tid cmd sr rest heq
    rw [heq] at hg
    simp [allGcode, PTask.isGcode] at hg
  · rfl

/-- _fill_device_buffer under an all-GCode in-flight queue: nothing popped,
sent tasks appended at the tail, and the queue stays all-GCode. -/
theorem fillDeviceBuffer_fifo (s : Dev) (hg : allGcode s.inFlight = true) :
    (fillDeviceBuffer s).1.inFlight = s.inFlight ++ (fillDeviceBuffer s).2.sent ∧
      (fillDeviceBuffer s).2.acked = [] ∧
      allGcode (fillDeviceBuffer s).1.inFlight = true := by
  have hg2 : allGcode ({ (fillGo { s with pending := [] } s.pending).1 with
      pending := (fillGo { s with pending := [] } s.pending).2.1 } : Dev).inFlight = true := by
    show allGcode (fillGo { s with pending := [] } s.pending).1.inFlight = true
    rw [fillGo_inFlight]
    have h1 : allGcode (({ s with pending := ([] : List PTask) } : Dev).inFlight) = true := hg
    have h2 := fillGo_sent_gcode s.pending { s with pending := [] }
    simp only [allGcode, List.all_append] at h1 h2 ⊢
    rw [h1, h2]
    rfl
  have hd := drain_id_of_allGcode _ hg2
  have hfd : fillDeviceBuffer s =
      ((drainNonGcode
          { (fillGo { s with pending := [] } s.pending).1 with
            pending := (fillGo { s with pending := [] } s.pending).2.1 }).1,
        ((fillGo { s with pending := [] } s.pending).2.2).app
          (drainNonGcode
            { (fillGo { s with pending := [] } s.pending).1 with
              pending := (fillGo { s with pending := [] } s.pending).2.1 }).2) := rfl
  rw [hfd, hd]
  refine ⟨?_, ?_, ?_⟩
  · show (fillGo { s with pending := [] } s.pending).1.inFlight =
      s.inFlight ++ (((fillGo { s with pending := [] } s.pending).2.2).app {}).sent
    rw [fillGo_inFlight]
    simp [Out.app]
  · show (((fillGo { s with pending := [] } s.pending).2.2).app {}).acked = []
    simp [Out.app, fillGo_acked]
  · exact hg2

/-- _handle_task_completion on a nonempty all-GCode in-flight queue pops
exactly the oldest task and appends its refills at the tail. -/
theorem completion_fifo (s : Dev) (line : String) (succ : Bool)
    (hg : allGcode s.inFlight = true) :
    s.inFlight ++ (handleTaskCompletion s line succ).2.sent =
        (handleTaskCompletion s line succ).2.acked ++
          (handleTaskCompletion s line succ).1.inFlight ∧
      allGcode (handleTaskCompletion s line succ).1.inFlight = true := by
  rcases hin : s.inFlight with _ | ⟨t, rest⟩
  · unfold handleTaskCompletion
    rw [hin]
    exact ⟨by simp [hin], hg⟩
  · have hgt : PTask.isGcode t = true := by
      rw [hin] at hg
      simp only [allGcode, List.all_cons, Bool.and_eq_true] at hg
      exact hg.1
    have hgr : allGcode rest = true := by
      rw [hin] at hg
      simp only [allGcode, List.all_cons, Bool.and_eq_true] at hg
      simpa [allGcode] using hg.2
    have key : ∀ (s2 : Dev) (o1 : Out), o1.sent = [] → o1.acked = [t] →
        s2.inFlight = rest →
        (let d := drainNonGcode s2
          if d.2.raised then (d.1, o1.app d.2)
          else
            (let f := fillDeviceBuffer d.1
            (f.1, (o1.app d.2).app f.2))).2.acked ++
          (let d := drainNonGcode s2
            if d.2.raised then (d.1, o1.app d.2)
            else
              (let f := fillDeviceBuffer d.1
              (f.1, (o1.app d.2).app f.2))).1.inFlight =
          (t :: rest) ++
            (let d := drainNonGcode s2
              if d.2.raised then (d.1, o1.app d.2)
              else
                (let f := fillDeviceBuffer d.1
                (f.1, (o1.app d.2).app f.2))).2.sent ∧
        allGcode (let d := drainNonGcode s2
            if d.2.raised then (d.1, o1.app d.2)
            else
              (let f := fillDeviceBuffer d.1
              (f.1, (o1.app d.2).app f.2))).1.inFlight = true := by
      intro s2 o1 hs1 ha1 hif
      have hg2 : allGcode s2.inFlight = true := by
        rw [hif]
        exact hgr
      have hd := drain_id_of_allGcode s2 hg2
      dsimp only
      rw [hd]
      obtain ⟨fa, fb, fc⟩ := fillDeviceBuffer_fifo s2 hg2
      have hraise : (({} : Out)).raised = false := rfl
      rw [hraise]
      simp only [Bool.false_eq_true, if_false]
      refine ⟨?_, fc⟩
      rw [fa, hif]
      simp [Out.app, hs1, ha1, fb]
    cases t with
    | gcode cl g sr =>
        unfold handleTaskCompletion
        rw [hin]
        by_cases himm : is_immediate_grbl_command g = true
        · by_cases hhom : isHomingG g = true
          · simp only [himm, if_true, hhom]
            exact ⟨((key _ _ rfl rfl rfl).1).symm, (key _ _ rfl rfl rfl).2⟩
          · simp only [himm, if_true, hhom, Bool.false_eq_true, if_false]
            exact ⟨((key _ _ rfl rfl rfl).1).symm, (key _ _ rfl rfl rfl).2⟩
        · by_cases hhom : isHomingG g = true
          · simp only [himm, Bool.false_eq_true, if_false, hhom, if_true]
            exact ⟨((key _ _ rfl rfl rfl).1).symm, (key _ _ rfl rfl rfl).2⟩
          · simp only [himm, hhom, Bool.false_eq_true, if_false]
            exact ⟨((key _ _ rfl rfl rfl).1).symm, (key _ _ rfl rfl rfl).2⟩
    | shell cl tid cmd sr =>
        simp [PTask.isGcode] at hgt

/-- A state update produces no output at all. -/
theorem stateUpdate_out (s : Dev) (l : String) : (handleStateUpdate s l).2 = {} := by
  unfold handleStateUpdate
  dsimp only
  split
  · split
    · rfl
    · rfl
  · rfl

/-- The unicast of a device line to the oldest client carries no ghosts. -/
theorem respondToClient_ghost (s : Dev) (l : String) :
    (respondToClient s l).sent = [] ∧ (respondToClient s l).acked = [] := by
  unfold respondToClient
  split
  · split
    · exact ⟨rfl, rfl⟩
    · exact ⟨rfl, rfl⟩
  · exact ⟨rfl, rfl⟩

/-- The homing grace timer either does nothing or performs a completion. -/
theorem graceFire_fifo (s : Dev) (hg : allGcode s.inFlight = true) :
    s.inFlight ++ (graceFire s).2.sent =
        (graceFire s).2.acked ++ (graceFire s).1.inFlight ∧
      allGcode (graceFire s).1.inFlight = true := by
  unfold graceFire
  split
  · exact ⟨by simp, hg⟩
  · dsimp only
    split
    · exact completion_fifo { s with graceTimers := s.graceTimers - 1 } "ok" true hg
    · exact ⟨by simp, hg⟩
/-- do_task on a non-immediate, non-soft-reset GCodeTask: no pops, sends
appended at the tail. -/
theorem doTask_fifo_gcode (c : Cfg) (s : Dev) (cl : Option String) (g : String) (sr : Bool)
    (himm : is_immediate_grbl_command g = false) (hlit : pyStrip g ≠ "0x18")
    (hg : allGcode s.inFlight = true) :
    s.inFlight ++ (doTask c s (.gcode cl g sr)).2.sent =
        (doTask c s (.gcode cl g sr)).2.acked ++ (doTask c s (.gcode cl g sr)).1.inFlight ∧
      allGcode (doTask c s (.gcode cl g sr)).1.inFlight = true := by
  unfold doTask
  split
  · exact ⟨by simp, hg⟩
  · rw [realtime_none_of_fifoOk c s cl g sr himm hlit]
    dsimp only
    split
    · exact ⟨by simp, hg⟩
    · have hrec := fillDeviceBuffer_fifo
        { s with pending := s.pending ++ [PTask.gcode cl g sr] } hg
      refine ⟨?_, hrec.2.2⟩
      rw [hrec.2.1, hrec.1]
      simp

/-- do_task on a ShellTask: no pops, sends appended at the tail. -/
theorem doTask_fifo_shell (c : Cfg) (s : Dev) (cl : Option String) (tid cmd : String)
    (sr : Bool) (hg : allGcode s.inFlight = true) :
    s.inFlight ++ (doTask c s (.shell cl tid cmd sr)).2.sent =
        (doTask c s (.shell cl tid cmd sr)).2.acked ++
          (doTask c s (.shell cl tid cmd sr)).1.inFlight ∧
      allGcode (doTask c s (.shell cl tid cmd sr)).1.inFlight = true := by
  unfold doTask
  split
  · exact ⟨by simp, hg⟩
  · have hrt : handleRealtimeCommands c s (.shell cl tid cmd sr) = none := rfl
    rw [hrt]
    dsimp only
    split
    · exact ⟨by simp, hg⟩
    · have hrec := fillDeviceBuffer_fifo
        { s with pending := s.pending ++ [PTask.shell cl tid cmd sr] } hg
      refine ⟨?_, hrec.2.2⟩
      rw [hrec.2.1, hrec.1]
      simp

/-- _handle_response_line on a line that is neither an ALARM nor a version
banner: the only pops are completions of the oldest task. -/
theorem responseLine_fifo (c : Cfg) (s : Dev) (l : String)
    (hA : pyStartsWith l "ALARM:" = false) (hG : subStr "Grbl ".data l.data = false)
    (hg : allGcode s.inFlight = true) :
    s.inFlight ++ (handleResponseLine c s l).2.sent =
        (handleResponseLine c s l).2.acked ++ (handleResponseLine c s l).1.inFlight ∧
      allGcode (handleResponseLine c s l).1.inFlight = true := by
  unfold handleResponseLine handleOkResponse shouldSwallowOk
  split
  · split
    · exact completion_fifo s l true hg
    · exact ⟨by simp, hg⟩
  · split
    · exact completion_fifo s l false hg
    · split
      · rename_i hAl
        rw [hA] at hAl
        cases hAl
      · split
        · obtain ⟨r1, r2⟩ := respondToClient_ghost s l
          have so := stateUpdate_out s l
          have sf := stateUpdate_fields s l
          dsimp only
          refine ⟨?_, ?_⟩
          · rw [so]
            simp [Out.app, r1, r2, sf.2]
          · rw [sf.2]
            exact hg
        · split
          · exact ⟨by simp, hg⟩
          · split
            · obtain ⟨r1, r2⟩ := respondToClient_ghost s l
              exact ⟨by simp [r1, r2], hg⟩
            · split
              · rename_i hGr
                rw [hG] at hGr
                cases hGr
              · exact ⟨by simp, hg⟩

/-- Every scheduler step allowed by the FIFO side conditions relates pops and
sends through the in-flight queue as a plain FIFO. -/
theorem step_fifo (c : Cfg) (s : Dev) (e : Ev) (hok : evOkForFifo e = true)
    (hg : allGcode s.inFlight = true) :
    s.inFlight ++ (step c s e).2.sent = (step c s e).2.acked ++ (step c s e).1.inFlight ∧
      allGcode (step c s e).1.inFlight = true := by
  cases e with
  | admitG cl g sr =>
      rw [show evOkForFifo (Ev.admitG cl g sr) =
          (!is_immediate_grbl_command
              (if g.length != 0 && !pyEndsWith g "\n" then g ++ "\n" else g)
            && (pyStrip (if g.length != 0 && !pyEndsWith g "\n" then g ++ "\n" else g)
                  != "0x18")) from rfl,
        Bool.and_eq_true] at hok
      obtain ⟨ha, hb⟩ := hok
      rw [Bool.not_eq_true'] at ha
      rw [bne_iff_ne] at hb
      exact doTask_fifo_gcode c s cl _ sr ha hb hg
  | admitS cl tid cmd sr => exact doTask_fifo_shell c s cl tid cmd sr hg
  | line l =>
      simp only [evOkForFifo, Bool.and_eq_true, Bool.not_eq_true'] at hok
      simp only [step]
      split
      · exact responseLine_fifo c s l hok.1 hok.2 hg
      · exact ⟨by simp, hg⟩
  | fill =>
      simp only [step]
      have hrec := fillDeviceBuffer_fifo s hg
      refine ⟨?_, hrec.2.2⟩
      rw [hrec.2.1, hrec.1]
      simp
  | grace => exact graceFire_fifo s hg
  | liveness =>
      refine ⟨?_, hg⟩
      show s.inFlight ++ ({} : Out).sent = ({} : Out).acked ++ s.inFlight
      simp

/-- Folding the FIFO step relation over a trace. -/
theorem runOut_fifo (c : Cfg) : ∀ (evs : List Ev) (s : Dev),
    (∀ e ∈ evs, evOkForFifo e = true) → allGcode s.inFlight = true →
    s.inFlight ++ (runOut c s evs).2.sent =
        (runOut c s evs).2.acked ++ (runOut c s evs).1.inFlight ∧
      allGcode (runOut c s evs).1.inFlight = true := by
  intro evs
  induction evs with
  | nil => intro s _ hg; exact ⟨by simp [runOut], hg⟩
  | cons e es ih =>
      intro s h hg
      have h1 := step_fifo c s e (h e (List.mem_cons_self e es)) hg
      have h2 := ih (step c s e).1 (fun x hx => h x (List.mem_cons_of_mem e hx)) h1.2
      have hout : runOut c s (e :: es) =
          ((runOut c (step c s e).1 es).1,
            (step c s e).2.app (runOut c (step c s e).1 es).2) := rfl
      rw [hout]
      refine ⟨?_, h2.2⟩
      simp only [Out.app]
      rw [← List.append_assoc, h1.1, List.append_assoc, h2.1, ← List.append_assoc]

/-- A completion on a nonempty in-flight queue acknowledges exactly the
oldest element. -/
theorem completion_acked_oldest (s : Dev) (t : PTask) (rest : List PTask)
    (line : String) (succ : Bool) (hin : s.inFlight = t :: rest) :
    (handleTaskCompletion s line succ).2.acked = [t] := by
  have key : ∀ (s2 : Dev) (o1 : Out), o1.acked = [t] →
      ((let d := drainNonGcode s2
        if d.2.raised then (d.1, o1.app d.2)
        else
          (let f := fillDeviceBuffer d.1
          (f.1, (o1.app d.2).app f.2))).2).acked = [t] := by
    intro s2 o1 ha1
    obtain ⟨r, hd⟩ := drain_shape s2
    obtain ⟨w, ts, rr, hf⟩ := fillDeviceBuffer_shape (drainNonGcode s2).1
    dsimp only
    split
    · rw [hd]
      simp [Out.app, ha1]
    · rw [hd, hf]
      simp [Out.app, ha1]
  unfold handleTaskCompletion
  rw [hin]
  cases t with
  | gcode cl g sr =>
      by_cases himm : is_immediate_grbl_command g = true
      · by_cases hhom : isHomingG g = true
        · simp only [himm, if_true, hhom]
          exact key _ _ rfl
        · simp only [himm, if_true, hhom, Bool.false_eq_true, if_false]
          exact key _ _ rfl
      · by_cases hhom : isHomingG g = true
        · simp only [himm, Bool.false_eq_true, if_false, hhom, if_true]
          exact key _ _ rfl
        · simp only [himm, hhom, Bool.false_eq_true, if_false]
          exact key _ _ rfl
  | shell cl tid cmd sr => exact key _ _ rfl

/-- C2 counterexample: immediate commands admitted through the queue (here
M0) are sent without quota deduction but still appended to the in-flight
queue, so the first acknowledgement pops the M0 task while the first
NON-IMMEDIATE task sent is the later motion command; the claim that the k-th
acknowledgement pops the k-th non-immediate task sent is false on this run. -/
theorem C2_counterexample :
    (runOut defaultCfg (initDev defaultCfg) fifoCounterRun).2.acked =
        [PTask.gcode (some "c1") "M0\n" true] ∧
      nonImmediateSent (runOut defaultCfg (initDev defaultCfg) fifoCounterRun).2.sent =
        [PTask.gcode (some "c1") "G1 X1\n" true] ∧
      PTask.gcode (some "c1") "M0\n" true ≠ PTask.gcode (some "c1") "G1 X1\n" true := by
  refine ⟨rfl, rfl, by decide⟩

/-- C2 amended: every non-swallowed completion (a device ok or error: line,
or the synthesized homing ok) pops exactly the oldest element of the
in-flight queue; and in every run whose admitted gcode is non-immediate and
not the literal soft-reset text and whose device lines contain no ALARM: or
version-banner resets, the sequence of popped tasks is a prefix of the
sequence of sent tasks in send order (the tasks popped so far followed by the
still-in-flight tasks are exactly the tasks sent so far), so the k-th
completion pops the k-th task sent. -/
theorem C2_amended :
    (∀ (c : Cfg) (evs : List Ev), (∀ e ∈ evs, evOkForFifo e = true) →
        (runOut c (initDev c) evs).2.sent =
          (runOut c (initDev c) evs).2.acked ++
            (runOut c (initDev c) evs).1.inFlight) ∧
      (∀ (s : Dev) (t : PTask) (rest : List PTask) (line : String) (succ : Bool),
        s.inFlight = t :: rest →
        (handleTaskCompletion s line succ).2.acked = [t]) := by
  constructor
  · intro c evs h
    have := runOut_fifo c evs (initDev c) h rfl
    simpa using this.1
  · exact completion_acked_oldest

/-- Witness for C2_amended on a concrete run: one motion command and its
acknowledgement. -/
theorem C2_amended_witness :
    (∀ e ∈ ([Ev.admitG (some "c1") "G1 X1" true, Ev.line "ok"] : List Ev),
        evOkForFifo e = true) ∧
      (runOut defaultCfg (initDev defaultCfg)
          [Ev.admitG (some "c1") "G1 X1" true, Ev.line "ok"]).2.sent =
        (runOut defaultCfg (initDev defaultCfg)
            [Ev.admitG (some "c1") "G1 X1" true, Ev.line "ok"]).2.acked ++
          (runOut defaultCfg (initDev defaultCfg)
              [Ev.admitG (some "c1") "G1 X1" true, Ev.line "ok"]).1.inFlight :=
  ⟨by decide, C2_amended.1 defaultCfg _ (by decide)⟩

/-! ## Claim C4 (homing exactly-once response) -/

/-- _send does not touch the homing phase. -/
theorem sendG_homing (s : Dev) (cl : Option String) (g : String) (sr : Bool) :
    (sendG s (.gcode cl g sr)).1.homing = s.homing := by
  simp only [sendG]
  split <;> rfl

/-- The fill loop leaves the homing phase alone or sets it to Queued (when it
sends a $H task); it never sets Complete. -/
theorem fillGo_homing : ∀ (p : List PTask) (s : Dev),
    (fillGo s p).1.homing = s.homing ∨ (fillGo s p).1.homing = Homing.queued := by
  intro p
  induction p with
  | nil => intro s; exact Or.inl rfl
  | cons t rest ih =>
      intro s
      cases t with
      | gcode cl g sr =>
          obtain ⟨s', hs⟩ := sendG_shape s cl g sr
          have hsh : s'.homing = s.homing := by
            have := sendG_homing s cl g sr
            rw [hs] at this
            exact this
          simp only [fillGo, hs]
          split
          · split
            · exact Or.inl rfl
            · split
              · exact Or.inl rfl
              · by_cases hhom : isHomingG g = true
                · simp only [hhom, if_true]
                  rcases ih { { s' with homing := Homing.queued } with
                      inFlight := ({ s' with homing := Homing.queued } : Dev).inFlight ++
                        [PTask.gcode cl g sr] } with h | h
                  · exact Or.inr h
                  · exact Or.inr h
                · simp only [hhom, Bool.false_eq_true, if_false]
                  rcases ih { s' with
                      inFlight := s'.inFlight ++ [PTask.gcode cl g sr] } with h | h
                  · exact Or.inl (h.trans hsh)
                  · exact Or.inr h
          · exact Or.inl rfl
      | shell cl tid cmd sr =>
          simp only [fillGo, PTask.waitForIdleAttr]
          split
          · split
            · exact Or.inl rfl
            · split
              · exact Or.inl rfl
              · exact Or.inl rfl
          · exact Or.inl rfl

/-- The drain does not touch the homing phase. -/
theorem drain_homing (s : Dev) : (drainNonGcode s).1.homing = s.homing := by
  unfold drainNonGcode
  split <;> rfl

/-- _fill_device_buffer never sets the homing phase to Complete. -/
theorem fillDeviceBuffer_homing (s : Dev) :
    (fillDeviceBuffer s).1.homing = s.homing ∨
      (fillDeviceBuffer s).1.homing = Homing.queued := by
  have hfd : (fillDeviceBuffer s).1 =
      (drainNonGcode
        { (fillGo { s with pending := [] } s.pending).1 with
          pending := (fillGo { s with pending := [] } s.pending).2.1 }).1 := rfl
  rw [hfd, drain_homing]
  exact fillGo_homing s.pending { s with pending := [] }

/-- After a completion pops a $H task the homing phase is Off or Queued,
never Complete, so a later grace timer cannot synthesize a second ok. -/
theorem completion_homing_not_complete (s : Dev) (cl : Option String) (g : String)
    (sr : Bool) (rest : List PTask) (line : String) (succ : Bool)
    (hin : s.inFlight = PTask.gcode cl g sr :: rest) (hhom : isHomingG g = true) :
    (handleTaskCompletion s line succ).1.homing ≠ Homing.complete := by
  have key : ∀ s2 : Dev, s2.homing ≠ Homing.complete →
      (let d := drainNonGcode s2
        if d.2.raised then (d.1, ({} : Out))
        else (let f := fillDeviceBuffer d.1
          (f.1, ({} : Out)))).1.homing ≠ Homing.complete := by
    intro s2 h2
    dsimp only
    split
    · rw [drain_homing]
      exact h2
    · rcases fillDeviceBuffer_homing (drainNonGcode s2).1 with h | h
      · rw [h, drain_homing]
        exact h2
      · rw [h]
        intro hc
        cases hc
  have key2 : ∀ (s2 : Dev) (o1 o2 o3 : Out), s2.homing ≠ Homing.complete →
      (let d := drainNonGcode s2
        if d.2.raised then (d.1, o1)
        else (let f := fillDeviceBuffer d.1
          (f.1, o2.app f.2))).1.homing ≠ Homing.complete := by
    intro s2 o1 o2 o3 h2
    dsimp only
    split
    · rw [drain_homing]
      exact h2
    · rcases fillDeviceBuffer_homing (drainNonGcode s2).1 with h | h
      · rw [h, drain_homing]
        exact h2
      · rw [h]
        intro hc
        cases hc
  unfold handleTaskCompletion
  rw [hin]
  by_cases himm : is_immediate_grbl_command g = true
  · simp only [himm, if_true, hhom, if_true]
    exact key2 _ _ _ {} (by intro hc; cases hc)
  · simp only [himm, Bool.false_eq_true, if_false, hhom, if_true]
    exact key2 _ _ _ {} (by intro hc; cases hc)

/-- A completion on a nonempty in-flight queue sends exactly one response,
to the popped task's client, when it wants one. -/
theorem completion_resp_oldest (s : Dev) (t : PTask) (rest : List PTask)
    (line : String) (succ : Bool) (hin : s.inFlight = t :: rest) :
    (handleTaskCompletion s line succ).2.resp =
      (if t.shouldRespond then [(t.client, line)] else []) := by
  have key : ∀ (s2 : Dev) (o1 : Out),
      o1.resp = (if t.shouldRespond then [(t.client, line)] else []) →
      ((let d := drainNonGcode s2
        if d.2.raised then (d.1, o1.app d.2)
        else
          (let f := fillDeviceBuffer d.1
          (f.1, (o1.app d.2).app f.2))).2).resp =
        (if t.shouldRespond then [(t.client, line)] else []) := by
    intro s2 o1 hr1
    obtain ⟨r, hd⟩ := drain_shape s2
    obtain ⟨w, ts, rr, hf⟩ := fillDeviceBuffer_shape (drainNonGcode s2).1
    dsimp only
    split
    · rw [hd]
      simp [Out.app, hr1]
    · rw [hd, hf]
      simp [Out.app, hr1]
  unfold handleTaskCompletion
  rw [hin]
  cases t with
  | gcode cl g sr =>
      by_cases himm : is_immediate_grbl_command g = true
      · by_cases hhom : isHomingG g = true
        · simp only [himm, if_true, hhom]
          exact key _ _ rfl
        · simp only [himm, if_true, hhom, Bool.false_eq_true, if_false]
          exact key _ _ rfl
      · by_cases hhom : isHomingG g = true
        · simp only [himm, Bool.false_eq_true, if_false, hhom, if_true]
          exact key _ _ rfl
        · simp only [himm, hhom, Bool.false_eq_true, if_false]
          exact key _ _ rfl
  | shell cl tid cmd sr => exact key _ _ rfl

/-- C4: the homing exactly-once mechanism, as the claim elaborates it.
(1) On a status transition from Home to a parsed Idle while homing is Queued,
homing becomes Complete and one grace timer is armed, with no output.
(2) When an armed grace timer fires while the oldest in-flight task is a
responding $H GCodeTask and homing is still Complete, exactly one successful
ok is synthesized for that client.
(3) Conversely a firing timer whose check fails (homing not Complete, or the
oldest in-flight task not a $H GCodeTask) sends nothing and pops nothing.
(4) A real completion that pops the $H task (for example its real ok arriving
within the grace period) leaves homing off Complete, so a later timer cannot
produce a second response.
(5) In the canonical lost-ok run and in the canonical real-ok-within-grace
run, the $H client receives exactly one terminating response, the ok. -/
theorem C4_homing_exactly_once :
    (∀ (s : Dev) (l : String), s.status = "Home" → parseStateStr l = "Idle" →
        s.homing = Homing.queued →
        handleStateUpdate s l =
          ({ s with
              status := "Idle"
              homing := Homing.complete
              graceTimers := s.graceTimers + 1 }, {})) ∧
      (∀ (s : Dev) (cl : Option String) (g : String) (rest : List PTask),
        s.graceTimers ≠ 0 → s.inFlight = PTask.gcode cl g true :: rest →
        isHomingG g = true → s.homing = Homing.complete →
        (graceFire s).2.resp = [(cl, "ok")]) ∧
      (∀ s : Dev, s.homing ≠ Homing.complete ∨ isHomingInFlight s = false →
        (graceFire s).2.resp = [] ∧ (graceFire s).2.acked = []) ∧
      (∀ (s : Dev) (cl : Option String) (g : String) (sr : Bool) (rest : List PTask)
          (line : String) (succ : Bool),
        s.inFlight = PTask.gcode cl g sr :: rest → isHomingG g = true →
        (handleTaskCompletion s line succ).1.homing ≠ Homing.complete) ∧
      termRespTo "c1" (runOut defaultCfg (initDev defaultCfg) homingLostOkRun).2 =
        ["ok"] ∧
      termRespTo "c1" (runOut defaultCfg (initDev defaultCfg) homingRealOkRun).2 =
        ["ok"] := by
  refine ⟨?_, ?_, ?_, completion_homing_not_complete, rfl, rfl⟩
  · intro s l hstat hparse hhom
    unfold handleStateUpdate
    dsimp only
    rw [hparse, hstat]
    have hne : (("Idle" != "Home") = true) := by decide
    rw [hne]
    have hq : (({ s with status := "Idle" } : Dev).homing == Homing.queued) = true := by
      show (s.homing == Homing.queued) = true
      rw [hhom]
      rfl
    simp only [hq, if_true, Bool.true_and]
    have hid : (("Idle" : String) == "Idle") = true := by decide
    have hhm : (("Home" : String) == "Home") = true := by decide
    rw [hhm, hid]
    simp
  · intro s cl g rest htim hin hhom hcomp
    have htb : (s.graceTimers == 0) = false := by
      simpa using htim
    unfold graceFire
    rw [htb]
    dsimp only
    have h1 : isHomingInFlight { s with graceTimers := s.graceTimers - 1 } = true := by
      unfold isHomingInFlight oldestGcodeTask
      simp only [hin]
      exact hhom
    have h2 : (({ s with graceTimers := s.graceTimers - 1 } : Dev).homing ==
        Homing.complete) = true := by
      show (s.homing == Homing.complete) = true
      rw [hcomp]
      rfl
    simp only [h1, h2, Bool.and_self, eq_self_iff_true, if_true]
    have hfin := completion_resp_oldest { s with graceTimers := s.graceTimers - 1 }
      (PTask.gcode cl g true) rest "ok" true hin
    exact hfin.trans (by rfl)
  · intro s hdis
    unfold graceFire
    split
    · exact ⟨rfl, rfl⟩
    · dsimp only
      split
      · rename_i hcond
        exfalso
        rw [Bool.and_eq_true] at hcond
        obtain ⟨h1, h2⟩ := hcond
        rcases hdis with hd | hd
        · rw [beq_iff_eq] at h2
          exact hd h2
        · rw [show isHomingInFlight { s with graceTimers := s.graceTimers - 1 } =
              isHomingInFlight s from rfl, hd] at h1
          cases h1
      · exact ⟨rfl, rfl⟩

/-- Witness for C4_homing_exactly_once: the Home to Idle transition with
homing Queued on a concrete state arms the grace timer. -/
theorem C4_homing_witness :
    (homingArmDev.status = "Home" ∧
        parseStateStr "<Idle|MPos:0,0,0>" = "Idle" ∧
        homingArmDev.homing = Homing.queued) ∧
      handleStateUpdate homingArmDev "<Idle|MPos:0,0,0>" =
        ({ homingArmDev with
            status := "Idle"
            homing := Homing.complete
            graceTimers := 1 }, {}) :=
  ⟨⟨rfl, rfl, rfl⟩,
    C4_homing_exactly_once.1 homingArmDev "<Idle|MPos:0,0,0>" rfl rfl rfl⟩



end GcodeProxy
